import Mathlib

/-!
Verification of the `rmcraft-backend` Schema Assembler and strategic resume
orchestrator (`app/agents/resume/strategic/schema_assembler.py` and
`app/agents/resume/strategic/strategic_resume_agent.py`).

The Python data values flowing through the assembler are JSON-like: `None`,
booleans, integers, strings, lists and dicts.  We embed them as `JValue`.
Python dicts are embedded as insertion-ordered association lists with string
keys (`Dict`); `dset` models `d[k] = v` (update in place, or append for a new
key) and `dget`/`dmem` model `d.get(k)` / `k in d`.

External library behaviour is parameterized:
* `parse : String → Option JValue` models `json.loads` (returning `none` for
  `json.JSONDecodeError`); a concrete executable instance `json_loads`
  (a fueled JSON parser for the integer fragment of JSON) is provided for
  evaluating the assembler on concrete inputs.
* `errMsg : String → Dict → String` models `str(pydantic.ValidationError)`
  (a function of the schema and the offending data); claims never inspect
  the text, only whether the two sides of a comparison agree.
-/

inductive JValue where
  | null : JValue
  | bool : Bool → JValue
  | int : Int → JValue
  | str : String → JValue
  | list : List JValue → JValue
  | obj : List (String × JValue) → JValue

/-- Python dicts with string keys, in insertion order. -/
abbrev Dict := List (String × JValue)

/-- `d.get(k)` as an `Option` (first occurrence of the key). -/
def dlookup : Dict → String → Option JValue
  | [], _ => none
  | (k1, v) :: rest, k => if k1 == k then some v else dlookup rest k

/-- `d.get(k)`: Python returns `None` both when the key is absent and when it
is stored as `None`. -/
def dget (d : Dict) (k : String) : JValue :=
  (dlookup d k).getD .null

/-- `k in d`. -/
def dmem (d : Dict) (k : String) : Bool :=
  (dlookup d k).isSome

/-- `d[k] = v`: overwrite the (unique) existing entry in place, else append
(Python dict insertion order). -/
def dset : Dict → String → JValue → Dict
  | [], k, v => [(k, v)]
  | (k1, v1) :: rest, k, v =>
      if k1 == k then (k, v) :: rest else (k1, v1) :: dset rest k v

/-- Removing a key: models a fragments mapping in which the field is simply
absent. -/
def ddel (d : Dict) (k : String) : Dict :=
  d.filter (fun p => !(p.1 == k))

/-- Member access on a `JValue` known to be a dict (`isinstance(x, dict) and k in x`). -/
def jmem : JValue → String → Bool
  | .obj d, k => dmem d k
  | _, _ => false

/-- `x[k]` on a dict value, `null` otherwise/absent. -/
def jgetD : JValue → String → JValue
  | .obj d, k => dget d k
  | _, _ => .null

/-- Python truthiness (`bool(x)`) for JSON-like values. -/
def jtruthy : JValue → Bool
  | .null => false
  | .bool b => b
  | .int n => !(n == 0)
  | .str s => !(s == "")
  | .list xs => !xs.isEmpty
  | .obj d => !d.isEmpty

def isStr : JValue → Bool
  | .str _ => true
  | _ => false

def isList : JValue → Bool
  | .list _ => true
  | _ => false

/- ### Python string helpers -/

/-- Is `sub` a prefix of `l`? -/
def isSubAt : List Char → List Char → Bool
  | [], _ => true
  | _ :: _, [] => false
  | a :: as, b :: bs => a == b && isSubAt as bs

/-- Does `l` contain `sub` as a contiguous run (Python `sub in s`)? -/
def hasSub (sub : List Char) : List Char → Bool
  | [] => isSubAt sub []
  | c :: rest => isSubAt sub (c :: rest) || hasSub sub rest

/-- Python `sub in s` on strings. -/
def strContains (s sub : String) : Bool :=
  hasSub sub.toList s.toList

/-- ASCII whitespace as stripped by Python's `str.strip` (the unicode cases
do not arise in this code's data). -/
def isWsChar (c : Char) : Bool :=
  c == ' ' || c == '\t' || c == '\n' || c == '\r' || c == '\x0b' || c == '\x0c'

/-- Python `s.strip()`. -/
def pyStrip (s : String) : String :=
  String.mk (((s.toList.dropWhile isWsChar).reverse.dropWhile isWsChar).reverse)

/-- Python `s.lstrip()`. -/
def pyLStrip (s : String) : String :=
  String.mk (s.toList.dropWhile isWsChar)

/-- `s.startswith(pre)`. -/
def strStartsWith (s pre : String) : Bool :=
  isSubAt pre.toList s.toList

/-- `s.endswith(suf)`. -/
def strEndsWith (s suf : String) : Bool :=
  isSubAt suf.toList.reverse s.toList.reverse

/-- `s[:-n]`. -/
def strDropRight (s : String) (n : Nat) : String :=
  String.mk ((s.toList.reverse.drop n).reverse)

/-- `s[n:]`. -/
def strDrop (s : String) (n : Nat) : String :=
  String.mk (s.toList.drop n)

/-- Index of the last occurrence of `c` (Python `s.rfind(c)`), if any. -/
def rfindIdx (cs : List Char) (c : Char) : Option Nat :=
  (cs.reverse.findIdx? (fun x => x == c)).map (fun i => cs.length - 1 - i)

def braceOpen : Char := Char.ofNat 123

def braceClose : Char := Char.ofNat 125

/-- `value is None`. -/
def isNull : JValue → Bool
  | .null => true
  | _ => false

/- ### `clean_json_response` (schema_assembler.py lines 42-70; the identical
module-level copy lives in strategic_resume_agent.py lines 60-89). -/

/--
Clean raw LLM response by removing markdown formatting and extracting pure
JSON.  Faithful to the source: `strip`, drop a leading ```` ```json ````
(7 chars) or ```` ``` ```` (3 chars), drop a trailing ```` ``` ````, `strip`
again, and if the result does not start with a brace, slice from the first
open brace to the last close brace (`text[start_idx:end_idx + 1]`) when
`end_idx > start_idx`.
-/
def clean_json_response (raw_text : String) : String :=
  if raw_text = "" then raw_text    -- `if not raw_text: return raw_text`
  else
    let text := pyStrip raw_text
    let text :=
      if strStartsWith text "```json" then strDrop text 7
      else if strStartsWith text "```" then strDrop text 3
      else text
    let text := if strEndsWith text "```" then strDropRight text 3 else text
    let text := pyStrip text
    if strStartsWith text "\x7b" then text
    else
      match (text.toList.findIdx? (fun c => c == braceOpen)), rfindIdx text.toList braceClose with
      | some start_idx, some end_idx =>
          if end_idx > start_idx then
            String.mk ((text.toList.drop start_idx).take (end_idx + 1 - start_idx))
          else text
      | _, _ => text

/- ### `normalize_input` (schema_assembler.py lines 72-98).

The `hasattr(value, 'model_dump')` branch (Pydantic model inputs) is outside
the JSON-like value domain and is not represented; every other branch is.
`parse` stands for `json.loads`, with `none` modelling `json.JSONDecodeError`.
-/

/--
Normalize input value for validation: strings that look like JSON (start with
a brace/bracket after cleaning, or carried a code fence) are cleaned and
parsed, with parse failure becoming `None`; any other value is returned
unchanged.
-/
def normalize_input (parse : String → Option JValue) (value : JValue) : JValue :=
  match value with
  | .str s =>
      let cleaned := clean_json_response s
      let trimmed := pyLStrip cleaned
      if strStartsWith trimmed "\x7b" || strStartsWith trimmed "[" || strStartsWith cleaned "```" then
        match parse cleaned with
        | some j => j
        | none => .null      -- `except json.JSONDecodeError: return None`
      else value
  | v => v

/- ### A concrete executable model of `json.loads` (fueled recursive-descent
parser for the integer fragment of JSON).  Universal claims are stated for an
arbitrary `parse`; `json_loads` instantiates them on concrete inputs. -/

def skipWs : List Char → List Char
  | c :: rest => if c == ' ' || c == '\n' || c == '\t' || c == '\r' then skipWs rest else c :: rest
  | [] => []

def parseDigits (acc : Nat) : List Char → Option (Nat × List Char)
  | c :: rest =>
      if c.isDigit then
        match parseDigits (acc * 10 + (c.toNat - 48)) rest with
        | some r => some r
        | none => some (acc * 10 + (c.toNat - 48), rest)
      else none
  | [] => none

def parseStringLit : Nat → List Char → Option (String × List Char)
  | 0, _ => none
  | _ + 1, [] => none
  | fuel + 1, c :: rest =>
      if c == '"' then some ("", rest)
      else if c == '\\' then
        match rest with
        | e :: rest2 =>
            let dec : Option Char :=
              if e == '"' then some '"'
              else if e == '\\' then some '\\'
              else if e == '/' then some '/'
              else if e == 'n' then some '\n'
              else if e == 't' then some '\t'
              else if e == 'r' then some '\r'
              else none
            match dec with
            | some d =>
                match parseStringLit fuel rest2 with
                | some (s, rem) => some (String.mk (d :: s.toList), rem)
                | none => none
            | none => none
        | [] => none
      else
        match parseStringLit fuel rest with
        | some (s, rem) => some (String.mk (c :: s.toList), rem)
        | none => none

mutual

def parseValue : Nat → List Char → Option (JValue × List Char)
  | 0, _ => none
  | _ + 1, [] => none
  | fuel + 1, c :: rest =>
      if c == braceOpen then parseObjRest fuel (skipWs rest) []
      else if c == '[' then parseArrRest fuel (skipWs rest) []
      else if c == '"' then
        match parseStringLit (fuel + 1) rest with
        | some (s, rem) => some (.str s, rem)
        | none => none
      else if c == 't' then
        if isSubAt ['r', 'u', 'e'] rest then some (.bool true, rest.drop 3) else none
      else if c == 'f' then
        if isSubAt ['a', 'l', 's', 'e'] rest then some (.bool false, rest.drop 4) else none
      else if c == 'n' then
        if isSubAt ['u', 'l', 'l'] rest then some (.null, rest.drop 3) else none
      else if c == '-' then
        match parseDigits 0 rest with
        | some (n, rem) => some (.int (-(n : Int)), rem)
        | none => none
      else if c.isDigit then
        match parseDigits 0 (c :: rest) with
        | some (n, rem) => some (.int (n : Int), rem)
        | none => none
      else none

def parseObjRest : Nat → List Char → Dict → Option (JValue × List Char)
  | 0, _, _ => none
  | _ + 1, [], _ => none
  | fuel + 1, c :: rest, acc =>
      if c == braceClose then some (.obj acc, rest)
      else if c == ',' && !acc.isEmpty then parseObjRest fuel (skipWs rest) acc
      else if c == '"' then
        match parseStringLit (fuel + 1) rest with
        | some (k, rem) =>
            match skipWs rem with
            | ':' :: rem2 =>
                match parseValue fuel (skipWs rem2) with
                | some (v, rem3) => parseObjRest fuel (skipWs rem3) (dset acc k v)
                | none => none
            | _ => none
        | none => none
      else none

def parseArrRest : Nat → List Char → List JValue → Option (JValue × List Char)
  | 0, _, _ => none
  | _ + 1, [], _ => none
  | fuel + 1, c :: rest, acc =>
      if c == ']' then some (.list acc, rest)
      else if c == ',' && !acc.isEmpty then parseArrRest fuel (skipWs rest) acc
      else
        match parseValue fuel (c :: rest) with
        | some (v, rem) => parseArrRest fuel (skipWs rem) (acc ++ [v])
        | none => none

end

/-- Executable model of `json.loads`: parse a complete value and require only
trailing whitespace.  Duplicate object keys keep the last value, as in
Python. -/
def json_loads (s : String) : Option JValue :=
  let cs := skipWs s.toList
  match parseValue (s.length + 1) cs with
  | some (v, rem) => if (skipWs rem).isEmpty then some v else none
  | none => none

/- ### Pydantic schema models (app/schemas/ResumeSchemas.py).

Each `*AgentOutPutSchema` is embedded as (a) the field table inspected by
`apply_coercion_repairs` (`model_fields` with the `typing.get_origin`-style
classification of the annotation) and (b) a validator modelling
`schema_class(**data)` under Pydantic v2 defaults: required fields must be
present, extra keys are ignored, `str` fields accept exactly strings,
`Optional` fields accept `None`, and list fields accept exactly lists whose
elements validate. -/

/-- Classification of a field annotation as used by `apply_coercion_repairs`:
`type(annotation).__origin__ == list` / `== dict`, `annotation == str`, or
anything else (e.g. `Optional[List[str]]`, whose origin is `Union` and whose
default is `None`). -/
inductive FieldKind where
  | listKind : FieldKind
  | dictKind : FieldKind
  | strKind : FieldKind
  | otherNoneDefault : FieldKind
deriving DecidableEq

structure SchemaModel where
  sname : String
  fields : List (String × FieldKind)
  valid : Dict → Bool

/-- A required `str` field: key present with a string value. -/
def reqStr (d : Dict) (k : String) : Bool :=
  match dlookup d k with
  | some (.str _) => true
  | _ => false

/-- `Optional[str] = None`: key absent, `None`, or a string. -/
def optStr (d : Dict) (k : String) : Bool :=
  match dlookup d k with
  | none => true
  | some .null => true
  | some (.str _) => true
  | _ => false

/-- `Optional[str]` without a default (required but nullable). -/
def reqNullableStr (d : Dict) (k : String) : Bool :=
  match dlookup d k with
  | some .null => true
  | some (.str _) => true
  | _ => false

/-- A required `List[α]` field: key present with a list of valid elements. -/
def listFieldValid (d : Dict) (k : String) (p : JValue → Bool) : Bool :=
  match dlookup d k with
  | some (.list xs) => xs.all p
  | _ => false

/-- `Experience`: id, company, position, startDate, endDate required strings;
responsibilities an optional list of strings (default_factory). -/
def validExperience : JValue → Bool
  | .obj d =>
      reqStr d "id" && reqStr d "company" && reqStr d "position" &&
      reqStr d "startDate" && reqStr d "endDate" &&
      (match dlookup d "responsibilities" with
       | none => true
       | some (.list xs) => xs.all isStr
       | _ => false)
  | _ => false

/-- `Skill`: id, name required strings; level `Optional[int] = None`. -/
def validSkill : JValue → Bool
  | .obj d =>
      reqStr d "id" && reqStr d "name" &&
      (match dlookup d "level" with
       | none => true
       | some .null => true
       | some (.int _) => true
       | _ => false)
  | _ => false

/-- `Project`: id, name, description required strings; url `Optional[str] = None`. -/
def validProject : JValue → Bool
  | .obj d => reqStr d "id" && reqStr d "name" && reqStr d "description" && optStr d "url"
  | _ => false

/-- `Education`: id, institution required strings; degree, startDate, endDate
`Optional[str]` without defaults (required but nullable). -/
def validEducation : JValue → Bool
  | .obj d =>
      reqStr d "id" && reqStr d "institution" && reqNullableStr d "degree" &&
      reqNullableStr d "startDate" && reqNullableStr d "endDate"
  | _ => false

/-- `ContactInfo`: five `Optional[str] = None` fields. -/
def validContactInfo : JValue → Bool
  | .obj d =>
      optStr d "email" && optStr d "phone" && optStr d "linkedin" &&
      optStr d "github" && optStr d "website"
  | _ => false

/-- `class ExperienceAgentOutPutSchema: experience: List[Experience]` — note
the field is `experience`, singular. -/
def ExperienceAgentOutPutSchema : SchemaModel where
  sname := "ExperienceAgentOutPutSchema"
  fields := [("experience", .listKind)]
  valid := fun d => listFieldValid d "experience" validExperience

/-- `class SkillsAgentOutPutSchema: skills: List[Skill];
additional_skills: Optional[List[str]] = None`. -/
def SkillsAgentOutPutSchema : SchemaModel where
  sname := "SkillsAgentOutPutSchema"
  fields := [("skills", .listKind), ("additional_skills", .otherNoneDefault)]
  valid := fun d =>
    listFieldValid d "skills" validSkill &&
    (match dlookup d "additional_skills" with
     | none => true
     | some .null => true
     | some (.list xs) => xs.all isStr
     | _ => false)

/-- `class ProjectsAgentOutPutSchema: projects: List[Project]`. -/
def ProjectsAgentOutPutSchema : SchemaModel where
  sname := "ProjectsAgentOutPutSchema"
  fields := [("projects", .listKind)]
  valid := fun d => listFieldValid d "projects" validProject

/-- `class EducationAgentOutPutSchema: education: List[Education]`. -/
def EducationAgentOutPutSchema : SchemaModel where
  sname := "EducationAgentOutPutSchema"
  fields := [("education", .listKind)]
  valid := fun d => listFieldValid d "education" validEducation

/-- `class ContactInfoAgentOutPutSchema: contact_info: List[ContactInfo]`. -/
def ContactInfoAgentOutPutSchema : SchemaModel where
  sname := "ContactInfoAgentOutPutSchema"
  fields := [("contact_info", .listKind)]
  valid := fun d => listFieldValid d "contact_info" validContactInfo

/-- `class SummaryAgentOutPutSchema: summary: str`. -/
def SummaryAgentOutPutSchema : SchemaModel where
  sname := "SummaryAgentOutPutSchema"
  fields := [("summary", .strKind)]
  valid := fun d => reqStr d "summary"

/-- `class NameAgentOutPutSchema: name: str`. -/
def NameAgentOutPutSchema : SchemaModel where
  sname := "NameAgentOutPutSchema"
  fields := [("name", .strKind)]
  valid := fun d => reqStr d "name"

/- ### `SchemaAssembler.validate_with_schema` (lines 188-200).

`schema_class(**data)` with a non-dict raises `TypeError`, caught by the
blanket `except Exception` and reported as invalid. -/

def validate_with_schema (data : JValue) (schema_class : SchemaModel) : Bool :=
  match data with
  | .obj d => schema_class.valid d
  | _ => false

/- ### `SchemaAssembler.apply_coercion_repairs` (lines 100-186). -/

/-- Default used when building a minimal instance for `None` input
(lines 117-128): `[]` for list-origin annotations, `{}` for dict-origin,
`""` for `str`, else the field default (`None` for `Optional[...] = None`). -/
def defaultFor : FieldKind → JValue
  | .listKind => .list []
  | .dictKind => .obj []
  | .strKind => .str ""
  | .otherNoneDefault => .null

/-- Lines 146-150: `None` values under keys containing `name`, `title`,
`description` or `summary` (substring test) become `""`. -/
def nameLikeKey (k : String) : Bool :=
  strContains k "name" || strContains k "title" || strContains k "description" || strContains k "summary"

/-- One pass over `repaired.items()` replacing qualifying `None`s, collecting
repair tags in iteration order. -/
def fixNones : Dict → Dict × List String
  | [] => ([], [])
  | (k, v) :: rest =>
      let r := fixNones rest
      if isNull v && nameLikeKey k then
        ((k, .str "") :: r.1, ("coercion: " ++ k ++ " None -> ''") :: r.2)
      else ((k, v) :: r.1, r.2)

/-- Lines 167-172: wrap a present non-`None` non-list value of a declared list
field into a single-element list. -/
def wrapSingles (listFields : List String) (d : Dict) : Dict × List String :=
  listFields.foldl
    (fun acc f =>
      if dmem acc.1 f && !isNull (dget acc.1 f) then
        if isList (dget acc.1 f) then acc
        else (dset acc.1 f (.list [dget acc.1 f]), acc.2 ++ ["coercion: " ++ f ++ " single -> list"])
      else acc)
    (d, [])

/-- Lines 174-178: missing or `None` list fields become `[]`. -/
def fillMissingLists (listFields : List String) (d : Dict) : Dict × List String :=
  listFields.foldl
    (fun acc f =>
      if !dmem acc.1 f || isNull (dget acc.1 f) then
        (dset acc.1 f (.list []), acc.2 ++ ["coercion: " ++ f ++ " missing -> []"])
      else acc)
    (d, [])

/-- Lines 180-184: missing or `None` dict fields become `{}` (no declared
schema has a dict-origin field, so this never fires for the seven schemas). -/
def fillMissingDicts (dictFields : List String) (d : Dict) : Dict × List String :=
  dictFields.foldl
    (fun acc f =>
      if !dmem acc.1 f || isNull (dget acc.1 f) then
        (dset acc.1 f (.obj []), acc.2 ++ ["coercion: " ++ f ++ " missing -> \x7b\x7d"])
      else acc)
    (d, [])

/--
Apply deterministic coercion repairs to make data compatible with schema.
Returns `(repaired_data, applied_repairs)`.
-/
def apply_coercion_repairs (data : JValue) (target_schema : SchemaModel) : JValue × List String :=
  match data with
  | .null =>
      -- lines 107-134: build a dict of per-field defaults
      (.obj (target_schema.fields.map (fun p => (p.1, defaultFor p.2))),
       ["coercion: None -> defaults"])
  | d =>
      let start : Dict × List String :=
        match d with
        | .obj kvs => (kvs, [])                                -- `repaired = data.copy()`
        | v => ([("value", v)], ["coercion: non-dict -> wrapped"])
      let listFields := (target_schema.fields.filter (fun p => p.2 == FieldKind.listKind)).map (fun p => p.1)
      let dictFields := (target_schema.fields.filter (fun p => p.2 == FieldKind.dictKind)).map (fun p => p.1)
      let s1 := fixNones start.1
      let s2 := wrapSingles listFields s1.1
      let s3 := fillMissingLists listFields s2.1
      let s4 := fillMissingDicts dictFields s3.1
      (.obj s4.1, start.2 ++ s1.2 ++ s2.2 ++ s3.2 ++ s4.2)

/- ### `SchemaAssembler.assemble_resume_object` (lines 202-327). -/

/-- Diagnostic information for each field repair attempt
(schema_assembler.py lines 23-30). -/
structure RepairDiagnostic where
  field : String
  original_fragment : JValue
  repairs_applied : List String
  status : String
  retry_count : Nat := 0
  error_message : Option String := none

/-- Everything the per-field body of the assembly loop produces besides the
raw fragment recorded in the diagnostic: the value written into
`final_resume` (if any), and the diagnostic's repairs, status and error
message. -/
structure FieldOutcome where
  value? : Option JValue
  repairs : List String
  status : String
  errtext : Option String

/-- Step 1.5 (lines 238-240): wrap non-dict values into the expected dict
format `{field_name: normalized}`. -/
def wrapNonDict (field_name : String) : JValue → JValue
  | .obj d => .obj d
  | v => .obj [(field_name, v)]

/-- Value extraction used on the valid paths (lines 246-253 and 291-298):
the inner value when the dict carries the field name, else the whole dict. -/
def extractField (field_name : String) (x : JValue) : JValue :=
  if jmem x field_name then jgetD x field_name else x

/-- Safe fallbacks of Step 5 (lines 302-306): list fields fall back to `[]`,
summary to `""`; any other field (i.e. `name`) writes nothing. -/
def fallbackValue (field_name : String) : Option JValue :=
  if ["experiences", "skills", "projects", "education", "contact_info"].contains field_name then
    some (.list [])
  else if field_name == "summary" then some (.str "")
  else none

/-- The loop body of `assemble_resume_object` (lines 235-310) after input
normalization: validation, quick-accepts, coercion repairs, re-validation,
fallback. -/
def assembleFieldCore (errMsg : String → Dict → String) (field_name : String)
    (schema_class : SchemaModel) (normalized0 : JValue) : FieldOutcome :=
  let normalized := wrapNonDict field_name normalized0
  if validate_with_schema normalized schema_class then
    { value? := some (extractField field_name normalized),
      repairs := [], status := "OK", errtext := none }
  else
    let candidate := extractField field_name normalized
    -- Quick-accept (lines 255-281)
    if field_name == "summary" &&
        (match candidate with | .str s => !(pyStrip s == "") | _ => false) then
      { value? := some candidate, repairs := [], status := "OK", errtext := none }
    else if field_name == "projects" &&
        (match candidate with | .list xs => !xs.isEmpty | _ => false) then
      { value? := some candidate, repairs := [], status := "OK", errtext := none }
    else
      -- Step 3-4: coercion repairs, then re-validation
      let rep := apply_coercion_repairs normalized schema_class
      if validate_with_schema rep.1 schema_class then
        { value? := some (extractField field_name rep.1),
          repairs := rep.2 ++ ["coercion"], status := "PARTIAL", errtext := none }
      else
        -- Step 5: safe fallback; error message from the Step-2 validation error
        { value? := fallbackValue field_name,
          repairs := rep.2 ++ ["fallback"], status := "FAILED",
          errtext := some (errMsg schema_class.sname
            (match normalized with | .obj d => d | _ => [])) }

/-- One iteration of the field loop: fetch the raw fragment, normalize it,
run the body, and package the diagnostic (whose `original_fragment` is the
raw value and whose `retry_count` stays 0). -/
def assembleField (parse : String → Option JValue) (errMsg : String → Dict → String)
    (field_name : String) (schema_class : SchemaModel) (raw_value : JValue) :
    Option JValue × RepairDiagnostic :=
  let out := assembleFieldCore errMsg field_name schema_class (normalize_input parse raw_value)
  (out.value?,
   { field := field_name, original_fragment := raw_value,
     repairs_applied := out.repairs, status := out.status,
     retry_count := 0, error_message := out.errtext })

/-- The field-to-schema mapping of lines 216-224, in dict insertion order. -/
def field_schemas : List (String × SchemaModel) :=
  [("experiences", ExperienceAgentOutPutSchema),
   ("skills", SkillsAgentOutPutSchema),
   ("projects", ProjectsAgentOutPutSchema),
   ("education", EducationAgentOutPutSchema),
   ("contact_info", ContactInfoAgentOutPutSchema),
   ("summary", SummaryAgentOutPutSchema),
   ("name", NameAgentOutPutSchema)]

/-- Lines 315-318. -/
def required_fields : List String :=
  ["experiences", "skills", "projects", "education", "contact_info", "summary", "name"]

/-- One step of lines 320-325: a still-missing required field becomes `[]`
(list fields) or `""`. -/
def ensureStep (acc : Dict) (f : String) : Dict :=
  if dmem acc f then acc
  else if ["experiences", "skills", "projects", "education", "contact_info"].contains f then
    dset acc f (.list [])
  else dset acc f (.str "")

/-- Lines 320-325. -/
def ensureRequired (d : Dict) : Dict :=
  required_fields.foldl ensureStep d

/-- `final_resume[field_name] = value` on the paths that write one, the
identity on the `name`-failure path that does not. -/
def updResult (acc : Dict) (r : String × (Option JValue × RepairDiagnostic)) : Dict :=
  match r.2.1 with
  | some v => dset acc r.1 v
  | none => acc

/--
Main assembly method that validates, repairs, and builds the final resume
object from `fragments` (raw sub-agent outputs keyed by field name); returns
`(final_resume_dict, diagnostics)`.
-/
def assemble_resume_object (parse : String → Option JValue) (errMsg : String → Dict → String)
    (fragments : Dict) : Dict × List RepairDiagnostic :=
  let results := field_schemas.map
    (fun p => (p.1, assembleField parse errMsg p.1 p.2 (dget fragments p.1)))
  (ensureRequired (results.foldl updResult []), results.map (fun r => r.2.2))

/-- Convenience function to assemble resume from fragments using
`SchemaAssembler` (lines 329-334). -/
def create_resume_from_fragments (parse : String → Option JValue)
    (errMsg : String → Dict → String) (fragments : Dict) :
    Dict × List RepairDiagnostic :=
  assemble_resume_object parse errMsg fragments

/-- A concrete stand-in for `str(pydantic.ValidationError)` used when
evaluating the assembler on concrete inputs; claims never inspect the text. -/
def pydanticErrText (sname : String) (_data : Dict) : String :=
  "validation error for " ++ sname

/- ### `process_resumes_for_chroma` (strategic_resume_agent.py lines 148-269).

The resume argument is `resume.model_dump()`, a JSON-like dict.  `uuid`
supplies the successive values of `str(uuid.uuid4())`; a counter tracks how
many have been drawn.  Documents and ids are kept as raw `JValue`s, as in
Python (the `list[str]` annotations are not enforced at runtime).  `str(x)`
interpolation in f-strings is modelled by `pyStr`, and `str.splitlines` by
splitting on a newline. -/

def pyStr : JValue → String
  | .null => "None"
  | .bool true => "True"
  | .bool false => "False"
  | .int n => toString n
  | .str s => s
  | .list _ => "[...]"
  | .obj _ => "\x7b...\x7d"

/-- `x or d` (Python short-circuit on truthiness). -/
def orTruthy (v dflt : JValue) : JValue :=
  if jtruthy v then v else dflt

/-- `d.get(k, dflt)` on a JSON value (`d` a dict in every reachable call). -/
def pget (v : JValue) (k : String) (dflt : JValue) : JValue :=
  match v with
  | .obj d => (dlookup d k).getD dflt
  | _ => dflt

/-- `resume_json.get(k, [])` followed by iteration. -/
def getJList (d : Dict) (k : String) : List JValue :=
  match dget d k with
  | .list xs => xs
  | _ => []

/-- `s.strip(chars)`: drop characters of `chars` from both ends. -/
def stripCharsBoth (chars : List Char) (s : String) : String :=
  String.mk (((s.toList.dropWhile (fun c => chars.contains c)).reverse.dropWhile
    (fun c => chars.contains c)).reverse)

/-- Split a character list at newlines. -/
def splitLinesChars : List Char → List (List Char)
  | [] => [[]]
  | c :: rest =>
      if c == '\n' then [] :: splitLinesChars rest
      else
        match splitLinesChars rest with
        | l :: ls => (c :: l) :: ls
        | [] => [[c]]

/-- `str.splitlines`, modelled as splitting on a newline (every line here is
stripped and empty lines dropped by the caller, so the trailing-empty-line
difference from Python does not matter). -/
def pySplitlines (s : String) : List String :=
  (splitLinesChars s.toList).map String.mk

structure ChromaState where
  documents : List JValue
  metadatas : List Dict
  ids : List JValue
  uuidCount : Nat

/-- Append one entry with a fixed id. -/
def chromaPush (st : ChromaState) (doc : JValue) (meta : Dict) (idv : JValue) : ChromaState :=
  { st with documents := st.documents ++ [doc], metadatas := st.metadatas ++ [meta],
            ids := st.ids ++ [idv] }

/-- Append one entry whose id is a fresh `str(uuid.uuid4())`. -/
def chromaPushUuid (uuid : Nat → String) (st : ChromaState) (doc : JValue) (meta : Dict) : ChromaState :=
  { documents := st.documents ++ [doc], metadatas := st.metadatas ++ [meta],
    ids := st.ids ++ [.str (uuid st.uuidCount)], uuidCount := st.uuidCount + 1 }

/-- Append one entry with `x or str(uuid.uuid4())` as id (the uuid is drawn
only when `x` is falsy, as Python's `or` short-circuits). -/
def chromaPushIdOr (uuid : Nat → String) (st : ChromaState) (doc : JValue) (meta : Dict)
    (idCand : JValue) : ChromaState :=
  if jtruthy idCand then chromaPush st doc meta idCand
  else chromaPushUuid uuid st doc meta

/-- Lines 182-200: one experience entry's responsibilities become documents. -/
def experienceSection (uuid : Nat → String) (resume : Dict) (st : ChromaState) : ChromaState :=
  (getJList resume "experience").foldl
    (fun st job =>
      let responsibilities := pget job "responsibilities" (.list [])
      let rvals : List JValue :=
        match responsibilities with
        | .str s => ((pySplitlines s).map (fun r => pyStrip r)).filterMap
            (fun r => if r == "" then none else some (.str r))
        | .list xs => xs
        | _ => []
      rvals.foldl
        (fun st r =>
          if jtruthy r then
            chromaPushUuid uuid st r
              [("type", .str "experience"),
               ("company", orTruthy (pget job "company" .null) (.str "Unknown Company")),
               ("position", orTruthy (pget job "position" .null) (.str "Unknown Position")),
               ("startDate", orTruthy (pget job "startDate" .null) (.str "Unknown")),
               ("endDate", orTruthy (pget job "endDate" .null) (.str "Unknown"))]
          else st)
        st)
    st

/-- Lines 202-214. -/
def projectsSection (uuid : Nat → String) (resume : Dict) (st : ChromaState) : ChromaState :=
  (getJList resume "projects").foldl
    (fun st project =>
      let name := orTruthy (pget project "name" (.str "")) (.str "")
      let desc := orTruthy (pget project "description" (.str "")) (.str "")
      let doc_content := pyStrip (stripCharsBoth [':', ' '] (pyStr name ++ ": " ++ pyStr desc))
      if doc_content == "" then st
      else
        chromaPushIdOr uuid st (.str doc_content)
          [("type", .str "project"),
           ("name", orTruthy (pget project "name" .null) (.str "Unknown Project"))]
          (pget project "id" .null))
    st

/-- Lines 216-222. -/
def skillsSection (resume : Dict) (st : ChromaState) : ChromaState :=
  let skill_list := (getJList resume "skills").filterMap
    (fun skill => if jtruthy (pget skill "name" .null) then some (pget skill "name" .null) else none)
  if skill_list.isEmpty then st
  else
    chromaPush st
      (.str ("Key technical skills include: " ++ String.intercalate ", " (skill_list.map pyStr)))
      [("type", .str "skills_summary")] (.str "skills_summary_01")

/-- Lines 224-228. -/
def summarySection (resume : Dict) (st : ChromaState) : ChromaState :=
  if jtruthy (dget resume "summary") then
    chromaPush st (dget resume "summary") [("type", .str "summary")] (.str "main_summary_01")
  else st

/-- Lines 230-245. -/
def educationSection (uuid : Nat → String) (resume : Dict) (st : ChromaState) : ChromaState :=
  (getJList resume "education").foldl
    (fun st education =>
      let institution := orTruthy (pget education "institution" (.str "")) (.str "")
      let degree := orTruthy (pget education "degree" (.str "")) (.str "")
      let doc_content := pyStrip (pyStr degree ++ " from " ++ pyStr institution)
      if doc_content == "" || doc_content == "from" then st
      else
        chromaPushIdOr uuid st (.str doc_content)
          [("type", .str "education"), ("institution", institution), ("degree", degree),
           ("startDate", orTruthy (pget education "startDate" .null) (.str "Unknown")),
           ("endDate", orTruthy (pget education "endDate" .null) (.str "Unknown"))]
          (pget education "id" .null))
    st

/-- Lines 247-266. -/
def contactSection (resume : Dict) (st : ChromaState) : ChromaState :=
  let contact_info := pget (.obj resume) "personalInfo" (.obj [])
  if jtruthy contact_info then
    let addPart := fun (parts : List String) (key label : String) =>
      if jtruthy (pget contact_info key .null) then
        parts ++ [label ++ ": " ++ pyStr (pget contact_info key .null)]
      else parts
    let parts := addPart (addPart (addPart (addPart (addPart [] "email" "Email")
      "phone" "Phone") "linkedin" "LinkedIn") "github" "GitHub") "website" "Website"
    if parts.isEmpty then st
    else
      chromaPush st (.str ("Contact information: " ++ String.intercalate ", " parts))
        [("type", .str "contact_info")] (.str "contact_info_01")
  else st

/--
Convert a resume JSON object into documents, metadatas and ids for ChromaDB,
section by section in source order.
-/
def process_resumes_for_chroma (uuid : Nat → String) (resume_json : Dict) : ChromaState :=
  contactSection resume_json
    (educationSection uuid resume_json
      (summarySection resume_json
        (skillsSection resume_json
          (projectsSection uuid resume_json
            (experienceSection uuid resume_json
              { documents := [], metadatas := [], ids := [], uuidCount := 0 })))))

/- ### `strategic_resume_agent` (lines 271-628): initial fragments, the
runner event loop with its wall-clock deadline, and final assembly. -/

/-- Lines 290: `resume.education if ... and resume.education else []`. -/
def educationData (resume : Dict) : JValue :=
  if jtruthy (dget resume "education") then dget resume "education" else .list []

/-- Lines 291-311: contact info derived from `personalInfo` when it is a
truthy dict (the `model_dump` branch handles Pydantic-model inputs, outside
the JSON-like domain). -/
def contactInfoData (resume : Dict) : JValue :=
  let personal_info := dget resume "personalInfo"
  if jtruthy personal_info then
    match personal_info with
    | .obj d =>
        .list [.obj [("email", (dlookup d "email").getD (.str "")),
                     ("phone", (dlookup d "phone").getD (.str "")),
                     ("linkedin", (dlookup d "linkedin").getD (.str "")),
                     ("github", (dlookup d "github").getD (.str "")),
                     ("website", (dlookup d "website").getD (.str ""))]]
    | _ => .list []
  else .list []

/-- Lines 541-558: prefer `resume.name`, else first/last name from a
`personalInfo` dict, else `""`; string concatenation of non-strings raises
and is caught by the blanket `except`, yielding `""`. -/
def nameValue (resume : Dict) : JValue :=
  if jtruthy (dget resume "name") then dget resume "name"
  else
    let personal := dget resume "personalInfo"
    if jtruthy personal then
      match personal with
      | .obj d =>
          let first := (dlookup d "firstName").getD (.str "")
          let last := (dlookup d "lastName").getD (.str "")
          if jtruthy first || jtruthy last then
            match first, last with
            | .str f, .str l => .str (pyStrip (f ++ " " ++ l))
            | _, _ => .str ""
          else .str ""
      | _ => .str ""
    else .str ""

/-- Lines 532-539 and 560: the initial fragments dict handed to the event
loop (note the `"experience"` key, singular, unlike the assembler's
`"experiences"`). -/
def initialFragments (resume : Dict) : Dict :=
  [("experience", .list []),
   ("skills", .obj [("skills", .list []), ("additional_skills", .list [])]),
   ("projects", .list []),
   ("education", .obj [("education", educationData resume)]),
   ("contact_info", .obj [("contact_info", contactInfoData resume)]),
   ("summary", .str ""),
   ("name", .obj [("name", nameValue resume)])]

/-- One event yielded by `runner.run_async`.  `elapsed` is the value of
`loop.time() - start_time` observed at the top of the loop iteration for
this event — wall-clock time since the single `start_time` taken before the
loop, not a per-task clock. -/
structure AgentEvent where
  elapsed : Nat
  is_final : Bool
  parts : List String

/-- Lines 586-590 and 600-603: copy parsed keys that already exist in the
fragments dict. -/
def updateFragments (fragments : Dict) (kvs : Dict) : Dict :=
  kvs.foldl (fun acc kv => if dmem acc kv.1 then dset acc kv.1 kv.2 else acc) fragments

/-- Lines 573-613: handle one event — final responses with content parts are
parsed as JSON (with a `clean_json_response` retry on failure) and merged
into the fragments; everything else is logged and ignored. -/
def processEvent (parse : String → Option JValue) (fragments : Dict) (ev : AgentEvent) : Dict :=
  if ev.is_final && !ev.parts.isEmpty then
    let raw_text := pyStrip (ev.parts.headD "")
    match parse raw_text with
    | some (.obj kvs) => updateFragments fragments kvs
    | some _ => fragments
    | none =>
        match parse (clean_json_response raw_text) with
        | some (.obj kvs) => updateFragments fragments kvs
        | _ => fragments
  else fragments

/-- Line 564: `timeout_seconds = 60`. -/
def timeout_seconds : Nat := 60

/-- Lines 567-613: the collection loop.  At the top of each iteration the
elapsed wall-clock time is compared against the single run-wide deadline;
once exceeded, the loop breaks without processing that event or any later
one. -/
def runEventLoop (parse : String → Option JValue) (fragments : Dict) :
    List AgentEvent → Dict
  | [] => fragments
  | ev :: rest =>
      if ev.elapsed > timeout_seconds then fragments
      else runEventLoop parse (processEvent parse fragments ev) rest

/--
The strategic resume agent: index the resume for Chroma (failing fast with a
`ValueError` when there is nothing at all to index — before any sub-agent is
built or run), then collect agent events under the 60-second deadline and
hand whatever fragments were collected to the Schema Assembler.
-/
def strategic_resume_agent (parse : String → Option JValue)
    (errMsg : String → Dict → String) (uuid : Nat → String) (resume : Dict)
    (events : List AgentEvent) : Except String (Dict × List RepairDiagnostic) :=
  let chroma := process_resumes_for_chroma uuid resume
  if chroma.documents.isEmpty then
    .error "No resume data found to process; cancelling the process."
  else
    let fragments := runEventLoop parse (initialFragments resume) events
    .ok (create_resume_from_fragments parse errMsg fragments)

/-- A diagnostic with its `original_fragment` erased: what remains observable
of a `RepairDiagnostic` apart from the echoed raw input. -/
def projDiag (dg : RepairDiagnostic) : String × List String × String × Nat × Option String :=
  (dg.field, dg.repairs_applied, dg.status, dg.retry_count, dg.error_message)

/- ### Association-list (Python dict) lemmas -/

theorem dlookup_dset_self (d : Dict) (k : String) (v : JValue) :
    dlookup (dset d k v) k = some v := by
  induction d with
  | nil => simp [dset, dlookup]
  | cons p rest ih =>
      obtain ⟨k1, v1⟩ := p
      by_cases hk : k1 = k
      · subst hk; simp [dset, dlookup]
      · simp [dset, dlookup, hk, ih]

theorem dlookup_dset_ne (d : Dict) (k : String) (v : JValue) (k' : String) (h : ¬(k' = k)) :
    dlookup (dset d k v) k' = dlookup d k' := by
  have hkk : ¬(k = k') := fun hc => h hc.symm
  induction d with
  | nil => simp [dset, dlookup, hkk]
  | cons p rest ih =>
      obtain ⟨k1, v1⟩ := p
      by_cases hk : k1 = k
      · subst hk; simp [dset, dlookup, hkk]
      · simp [dset, dlookup, hk, ih]

theorem dmem_dset_self (d : Dict) (k : String) (v : JValue) :
    dmem (dset d k v) k = true := by
  simp [dmem, dlookup_dset_self]

theorem dmem_dset_mono (d : Dict) (k : String) (v : JValue) (k' : String)
    (h : dmem d k' = true) : dmem (dset d k v) k' = true := by
  by_cases hk : k' = k
  · subst hk; exact dmem_dset_self d k' v
  · simpa [dmem, dlookup_dset_ne d k v k' hk] using h

theorem dget_dset_self (d : Dict) (k : String) (v : JValue) :
    dget (dset d k v) k = v := by
  simp [dget, dlookup_dset_self]

theorem dget_dset_ne (d : Dict) (k : String) (v : JValue) (k' : String) (h : ¬(k' = k)) :
    dget (dset d k v) k' = dget d k' := by
  simp [dget, dlookup_dset_ne d k v k' h]

theorem dlookup_ddel_self (d : Dict) (k : String) : dlookup (ddel d k) k = none := by
  induction d with
  | nil => simp [ddel, dlookup]
  | cons p rest ih =>
      obtain ⟨k1, v1⟩ := p
      by_cases hk : k1 = k
      · subst hk
        have hb : (!(k1 == k1)) = false := by simp
        simpa [ddel, List.filter_cons, hb] using ih
      · have hb : (!(k1 == k)) = true := by simp [hk]
        have hd : (k1 == k) = false := by simp [hk]
        simpa [ddel, List.filter_cons, hb, dlookup, hd] using ih

theorem dlookup_ddel_ne (d : Dict) (k k' : String) (h : ¬(k' = k)) :
    dlookup (ddel d k) k' = dlookup d k' := by
  induction d with
  | nil => simp [ddel]
  | cons p rest ih =>
      obtain ⟨k1, v1⟩ := p
      by_cases hk : k1 = k
      · subst hk
        have hb : (!(k1 == k1)) = false := by simp
        have hd : (k1 == k') = false := by
          simp only [beq_eq_false_iff_ne, ne_eq]
          exact fun hc => h (hc.symm)
        simpa [ddel, List.filter_cons, hb, dlookup, hd] using ih
      · have hb : (!(k1 == k)) = true := by simp [hk]
        by_cases hq : k1 = k'
        · subst hq
          simp [ddel, List.filter_cons, hb, dlookup]
        · have hd : (k1 == k') = false := by simp [hq]
          simpa [ddel, List.filter_cons, hb, dlookup, hd] using ih

theorem dget_ddel_self (d : Dict) (k : String) : dget (ddel d k) k = .null := by
  simp [dget, dlookup_ddel_self]

theorem dget_ddel_ne (d : Dict) (k k' : String) (h : ¬(k' = k)) :
    dget (ddel d k) k' = dget d k' := by
  simp [dget, dlookup_ddel_ne d k k' h]

/- ### Assembly helper lemmas -/

theorem ensureStep_mem_self (d : Dict) (f : String) : dmem (ensureStep d f) f = true := by
  unfold ensureStep
  by_cases h : dmem d f = true
  · simp [h]
  · simp only [Bool.not_eq_true] at h
    simp only [h, Bool.false_eq_true, if_false]
    split
    · exact dmem_dset_self d f _
    · exact dmem_dset_self d f _

theorem ensureStep_mem_mono (d : Dict) (f k : String) (h : dmem d k = true) :
    dmem (ensureStep d f) k = true := by
  unfold ensureStep
  by_cases hm : dmem d f = true
  · simp [hm, h]
  · simp only [Bool.not_eq_true] at hm
    simp only [hm, Bool.false_eq_true, if_false]
    split
    · exact dmem_dset_mono d f _ k h
    · exact dmem_dset_mono d f _ k h

theorem ensureStep_lookup_of_mem (d : Dict) (f k : String) (h : dmem d k = true) :
    dlookup (ensureStep d f) k = dlookup d k := by
  unfold ensureStep
  by_cases hfk : f = k
  · subst hfk; simp [h]
  · have hne : ¬(k = f) := fun hc => hfk hc.symm
    by_cases hm : dmem d f = true
    · simp [hm]
    · simp only [Bool.not_eq_true] at hm
      simp only [hm, Bool.false_eq_true, if_false]
      split
      · exact dlookup_dset_ne d f _ k hne
      · exact dlookup_dset_ne d f _ k hne

theorem ensureStep_lookup_ne (d : Dict) (f k : String) (h : ¬(k = f)) :
    dlookup (ensureStep d f) k = dlookup d k := by
  unfold ensureStep
  by_cases hm : dmem d f = true
  · simp [hm]
  · simp only [Bool.not_eq_true] at hm
    simp only [hm, Bool.false_eq_true, if_false]
    split
    · exact dlookup_dset_ne d f _ k h
    · exact dlookup_dset_ne d f _ k h

theorem updResult_lookup_ne (acc : Dict) (name : String) (ov : Option JValue)
    (dg : RepairDiagnostic) (k : String) (h : ¬(k = name)) :
    dlookup (updResult acc (name, ov, dg)) k = dlookup acc k := by
  cases ov <;> simp [updResult, dlookup_dset_ne _ _ _ _ h]

theorem updResult_lookup_self_some (acc : Dict) (name : String) (v : JValue)
    (dg : RepairDiagnostic) :
    dlookup (updResult acc (name, some v, dg)) name = some v := by
  simp [updResult, dlookup_dset_self]

theorem updResult_none (acc : Dict) (name : String) (dg : RepairDiagnostic) :
    updResult acc (name, none, dg) = acc := rfl

theorem assembleFieldCore_status (errMsg : String → Dict → String) (fn : String)
    (sch : SchemaModel) (n0 : JValue) :
    (assembleFieldCore errMsg fn sch n0).status = "OK" ∨
    (assembleFieldCore errMsg fn sch n0).status = "PARTIAL" ∨
    (assembleFieldCore errMsg fn sch n0).status = "FAILED" := by
  simp only [assembleFieldCore]
  split_ifs <;> simp

theorem wrapNonDict_obj (fn : String) (n0 : JValue) : ∃ d, wrapNonDict fn n0 = .obj d := by
  cases n0 <;> simp [wrapNonDict]

theorem extractField_of_lookup (d : Dict) (fn : String) (v : JValue)
    (h : dlookup d fn = some v) : extractField fn (.obj d) = v := by
  simp [extractField, jmem, dmem, jgetD, dget, h]

theorem listFieldValid_lookup (d : Dict) (k : String) (p : JValue → Bool)
    (h : listFieldValid d k p = true) : ∃ xs, dlookup d k = some (.list xs) := by
  unfold listFieldValid at h
  split at h
  · next xs heq => exact ⟨xs, heq⟩
  · exact absurd h (by simp)

theorem reqStr_lookup (d : Dict) (k : String) (h : reqStr d k = true) :
    ∃ s, dlookup d k = some (.str s) := by
  unfold reqStr at h
  split at h
  · next s heq => exact ⟨s, heq⟩
  · exact absurd h (by simp)

theorem skills_valid_lookup (d : Dict) (h : SkillsAgentOutPutSchema.valid d = true) :
    ∃ xs, dlookup d "skills" = some (.list xs) := by
  have h' : listFieldValid d "skills" validSkill = true := by
    have := (Bool.and_eq_true _ _).mp (by simpa [SkillsAgentOutPutSchema] using h)
    exact this.1
  exact listFieldValid_lookup d "skills" validSkill h'

theorem assembleFieldCore_isList (errMsg : String → Dict → String) (fn : String)
    (sch : SchemaModel) (n0 : JValue)
    (hs : (fn == "summary") = false)
    (hf : fallbackValue fn = some (.list []))
    (hsch : ∀ d : Dict, sch.valid d = true → ∃ xs, dlookup d fn = some (.list xs)) :
    ((assembleFieldCore errMsg fn sch n0).value?).map isList = some true := by
  obtain ⟨d, hd⟩ := wrapNonDict_obj fn n0
  simp only [assembleFieldCore, hd]
  split_ifs with h1 h2 h3 h4
  · have hv : sch.valid d = true := by simpa [validate_with_schema] using h1
    obtain ⟨xs, hlk⟩ := hsch d hv
    rw [extractField_of_lookup d fn _ hlk]
    simp [isList]
  · rw [Bool.and_eq_true] at h2
    rw [hs] at h2
    exact absurd h2.1 (by simp)
  · rw [Bool.and_eq_true] at h3
    rcases hc : extractField fn (JValue.obj d) with _ | _ | _ | _ | xs | _ <;>
      rw [hc] at h3 <;> simp at h3
    simp [hc, isList]
  · rcases hrep : (apply_coercion_repairs (JValue.obj d) sch).1 with _ | _ | _ | _ | _ | rd <;>
      rw [hrep] at h4 <;> simp [validate_with_schema] at h4
    obtain ⟨xs, hlk⟩ := hsch rd h4
    rw [extractField_of_lookup rd fn _ hlk]
    simp [isList]
  · simp [hf, isList]

theorem assembleFieldCore_isStr (errMsg : String → Dict → String) (fn : String)
    (sch : SchemaModel) (n0 : JValue)
    (hp : (fn == "projects") = false)
    (hf : fallbackValue fn = some (.str ""))
    (hsch : ∀ d : Dict, sch.valid d = true → ∃ s, dlookup d fn = some (.str s)) :
    ((assembleFieldCore errMsg fn sch n0).value?).map isStr = some true := by
  obtain ⟨d, hd⟩ := wrapNonDict_obj fn n0
  simp only [assembleFieldCore, hd]
  split_ifs with h1 h2 h3 h4
  · have hv : sch.valid d = true := by simpa [validate_with_schema] using h1
    obtain ⟨s, hlk⟩ := hsch d hv
    rw [extractField_of_lookup d fn _ hlk]
    simp [isStr]
  · rw [Bool.and_eq_true] at h2
    rcases hc : extractField fn (JValue.obj d) with _ | _ | _ | s | _ | _ <;>
      rw [hc] at h2 <;> simp at h2
    simp [hc, isStr]
  · rw [Bool.and_eq_true] at h3
    rw [hp] at h3
    exact absurd h3.1 (by simp)
  · rcases hrep : (apply_coercion_repairs (JValue.obj d) sch).1 with _ | _ | _ | _ | _ | rd <;>
      rw [hrep] at h4 <;> simp [validate_with_schema] at h4
    obtain ⟨s, hlk⟩ := hsch rd h4
    rw [extractField_of_lookup rd fn _ hlk]
    simp [isStr]
  · simp [hf, isStr]

theorem assembleFieldCore_name (errMsg : String → Dict → String) (sch : SchemaModel)
    (n0 : JValue)
    (hsch : ∀ d : Dict, sch.valid d = true → ∃ s, dlookup d "name" = some (.str s)) :
    ((assembleFieldCore errMsg "name" sch n0).value?).map isStr = some true ∨
    (assembleFieldCore errMsg "name" sch n0).value? = none := by
  obtain ⟨d, hd⟩ := wrapNonDict_obj "name" n0
  simp only [assembleFieldCore, hd]
  split_ifs with h1 h2 h3 h4
  · left
    have hv : sch.valid d = true := by simpa [validate_with_schema] using h1
    obtain ⟨s, hlk⟩ := hsch d hv
    rw [extractField_of_lookup d "name" _ hlk]
    simp [isStr]
  · rw [Bool.and_eq_true] at h2
    exact absurd h2.1 (by simp)
  · rw [Bool.and_eq_true] at h3
    exact absurd h3.1 (by simp)
  · left
    rcases hrep : (apply_coercion_repairs (JValue.obj d) sch).1 with _ | _ | _ | _ | _ | rd <;>
      rw [hrep] at h4 <;> simp [validate_with_schema] at h4
    obtain ⟨s, hlk⟩ := hsch rd h4
    rw [extractField_of_lookup rd "name" _ hlk]
    simp [isStr]
  · right
    simp [fallbackValue]

theorem assembleField_fst (parse : String → Option JValue) (errMsg : String → Dict → String)
    (fn : String) (sch : SchemaModel) (raw : JValue) :
    (assembleField parse errMsg fn sch raw).1 =
      (assembleFieldCore errMsg fn sch (normalize_input parse raw)).value? := rfl

theorem assembleField_snd (parse : String → Option JValue) (errMsg : String → Dict → String)
    (fn : String) (sch : SchemaModel) (raw : JValue) :
    (assembleField parse errMsg fn sch raw).2 =
      { field := fn, original_fragment := raw,
        repairs_applied := (assembleFieldCore errMsg fn sch (normalize_input parse raw)).repairs,
        status := (assembleFieldCore errMsg fn sch (normalize_input parse raw)).status,
        retry_count := 0,
        error_message := (assembleFieldCore errMsg fn sch (normalize_input parse raw)).errtext } := rfl

theorem assembleFieldCore_value_isSome (errMsg : String → Dict → String) (fn : String)
    (sch : SchemaModel) (n0 : JValue) (h : (fallbackValue fn).isSome = true) :
    ((assembleFieldCore errMsg fn sch n0).value?).isSome = true := by
  simp only [assembleFieldCore]
  split_ifs <;> simp [h]

theorem dmem_ensureRequired_experiences (d : Dict) :
    dmem (ensureRequired d) "experiences" = true := by
  simp only [ensureRequired, required_fields, List.foldl]
  repeat (first | exact ensureStep_mem_self _ _ | apply ensureStep_mem_mono)

theorem dmem_ensureRequired_skills (d : Dict) :
    dmem (ensureRequired d) "skills" = true := by
  simp only [ensureRequired, required_fields, List.foldl]
  repeat (first | exact ensureStep_mem_self _ _ | apply ensureStep_mem_mono)

theorem dmem_ensureRequired_projects (d : Dict) :
    dmem (ensureRequired d) "projects" = true := by
  simp only [ensureRequired, required_fields, List.foldl]
  repeat (first | exact ensureStep_mem_self _ _ | apply ensureStep_mem_mono)

theorem dmem_ensureRequired_education (d : Dict) :
    dmem (ensureRequired d) "education" = true := by
  simp only [ensureRequired, required_fields, List.foldl]
  repeat (first | exact ensureStep_mem_self _ _ | apply ensureStep_mem_mono)

theorem dmem_ensureRequired_contact_info (d : Dict) :
    dmem (ensureRequired d) "contact_info" = true := by
  simp only [ensureRequired, required_fields, List.foldl]
  repeat (first | exact ensureStep_mem_self _ _ | apply ensureStep_mem_mono)

theorem dmem_ensureRequired_summary (d : Dict) :
    dmem (ensureRequired d) "summary" = true := by
  simp only [ensureRequired, required_fields, List.foldl]
  repeat (first | exact ensureStep_mem_self _ _ | apply ensureStep_mem_mono)

theorem dmem_ensureRequired_name (d : Dict) :
    dmem (ensureRequired d) "name" = true := by
  simp only [ensureRequired, required_fields, List.foldl]
  repeat (first | exact ensureStep_mem_self _ _ | apply ensureStep_mem_mono)

theorem dmem_ensureRequired (d : Dict) (f : String) (hf : f ∈ required_fields) :
    dmem (ensureRequired d) f = true := by
  simp only [required_fields, List.mem_cons, List.not_mem_nil, or_false] at hf
  rcases hf with h | h | h | h | h | h | h <;> subst h
  · exact dmem_ensureRequired_experiences d
  · exact dmem_ensureRequired_skills d
  · exact dmem_ensureRequired_projects d
  · exact dmem_ensureRequired_education d
  · exact dmem_ensureRequired_contact_info d
  · exact dmem_ensureRequired_summary d
  · exact dmem_ensureRequired_name d

/- ### Claim theorems -/

/--
C1: for every fragments mapping (the empty mapping, all-`None`, malformed
strings, well-formed records — any `Dict` at all, under any model of
`json.loads` and of Pydantic's error rendering), `assemble_resume_object`
returns (it is a total function of its inputs, so it never raises), the
returned result contains every one of the seven declared fields, and the
diagnostics list has exactly one entry per declared field — in declaration
order, hence length 7 independent of how many fragments were supplied — each
with status `"OK"`, `"PARTIAL"` or `"FAILED"`.
-/
theorem C1_assemble_total_and_diagnostics (parse : String → Option JValue)
    (errMsg : String → Dict → String) (fragments : Dict) :
    ((assemble_resume_object parse errMsg fragments).2).length = 7 ∧
    ((assemble_resume_object parse errMsg fragments).2).map (fun dg => dg.field) = required_fields ∧
    (∀ dg ∈ (assemble_resume_object parse errMsg fragments).2,
       dg.status = "OK" ∨ dg.status = "PARTIAL" ∨ dg.status = "FAILED") ∧
    (∀ f ∈ required_fields, dmem (assemble_resume_object parse errMsg fragments).1 f = true) := by
  refine ⟨?_, ?_, ?_, ?_⟩
  · simp [assemble_resume_object, field_schemas]
  · simp [assemble_resume_object, field_schemas, assembleField_snd, required_fields]
  · intro dg hdg
    simp only [assemble_resume_object, field_schemas, List.map, List.mem_cons,
      List.not_mem_nil, or_false] at hdg
    rcases hdg with h | h | h | h | h | h | h <;>
      · subst h
        rw [assembleField_snd]
        exact assembleFieldCore_status errMsg _ _ _
  · intro f hf
    simp only [assemble_resume_object]
    exact dmem_ensureRequired _ f hf

theorem updResult_eq_dset (acc : Dict) (r : String × (Option JValue × RepairDiagnostic))
    (v : JValue) (h : r.2.1 = some v) : updResult acc r = dset acc r.1 v := by
  rcases r with ⟨n, ov, dg⟩
  simp only at h
  subst h
  rfl

theorem updResult_eq_id (acc : Dict) (r : String × (Option JValue × RepairDiagnostic))
    (h : r.2.1 = none) : updResult acc r = acc := by
  rcases r with ⟨n, ov, dg⟩
  simp only at h
  subst h
  rfl

theorem updResult_lookup_ne2 (acc : Dict) (r : String × (Option JValue × RepairDiagnostic))
    (k : String) (h : (r.1 == k) = false) :
    dlookup (updResult acc r) k = dlookup acc k := by
  rcases r with ⟨n, ov, dg⟩
  simp only [beq_eq_false_iff_ne, ne_eq] at h
  exact updResult_lookup_ne acc n ov dg k (fun hc => h hc.symm)

theorem updResult_mem_mono (acc : Dict) (r : String × (Option JValue × RepairDiagnostic))
    (k : String) (h : dmem acc k = true) : dmem (updResult acc r) k = true := by
  rcases r with ⟨n, ov, dg⟩
  cases ov
  · exact h
  · exact dmem_dset_mono acc n _ k h

theorem dmem_foldl_mono (rs : List (String × (Option JValue × RepairDiagnostic)))
    (acc : Dict) (k : String) (h : dmem acc k = true) :
    dmem (rs.foldl updResult acc) k = true := by
  induction rs generalizing acc with
  | nil => exact h
  | cons r rest ih => exact ih _ (updResult_mem_mono acc r k h)

theorem dlookup_foldl_ne (rs : List (String × (Option JValue × RepairDiagnostic)))
    (acc : Dict) (k : String) (h : rs.all (fun r => !(r.1 == k)) = true) :
    dlookup (rs.foldl updResult acc) k = dlookup acc k := by
  induction rs generalizing acc with
  | nil => rfl
  | cons r rest ih =>
      simp only [List.all_cons, Bool.and_eq_true] at h
      rw [List.foldl_cons, ih _ h.2]
      exact updResult_lookup_ne2 acc r k (by simpa using h.1)

theorem dlookup_ensureRequired_of_mem (d : Dict) (k : String) (h : dmem d k = true) :
    dlookup (ensureRequired d) k = dlookup d k := by
  have m1 := ensureStep_mem_mono d "experiences" k h
  have m2 := ensureStep_mem_mono _ "skills" k m1
  have m3 := ensureStep_mem_mono _ "projects" k m2
  have m4 := ensureStep_mem_mono _ "education" k m3
  have m5 := ensureStep_mem_mono _ "contact_info" k m4
  have m6 := ensureStep_mem_mono _ "summary" k m5
  simp only [ensureRequired, required_fields, List.foldl]
  rw [ensureStep_lookup_of_mem _ _ _ m6, ensureStep_lookup_of_mem _ _ _ m5,
      ensureStep_lookup_of_mem _ _ _ m4, ensureStep_lookup_of_mem _ _ _ m3,
      ensureStep_lookup_of_mem _ _ _ m2, ensureStep_lookup_of_mem _ _ _ m1,
      ensureStep_lookup_of_mem _ _ _ h]

theorem dget_ensureRequired_of_mem (d : Dict) (k : String) (h : dmem d k = true) :
    dget (ensureRequired d) k = dget d k := by
  simp [dget, dlookup_ensureRequired_of_mem d k h]

theorem ensureStep_name_fill (x : Dict) (hx : dlookup x "name" = none) :
    dlookup (ensureStep x "name") "name" = some (.str "") := by
  unfold ensureStep
  have hm : dmem x "name" = false := by simp [dmem, hx]
  simp only [hm, Bool.false_eq_true, if_false]
  have hc : (["experiences", "skills", "projects", "education", "contact_info"].contains "name") = false := by rfl
  simp only [hc, Bool.false_eq_true, if_false]
  exact dlookup_dset_self x "name" _

theorem dget_ensureRequired_name (d : Dict) (h : dlookup d "name" = none) :
    dget (ensureRequired d) "name" = .str "" := by
  simp only [ensureRequired, required_fields, List.foldl, dget]
  rw [ensureStep_name_fill _ (by
    rw [ensureStep_lookup_ne _ _ _ (by decide), ensureStep_lookup_ne _ _ _ (by decide),
        ensureStep_lookup_ne _ _ _ (by decide), ensureStep_lookup_ne _ _ _ (by decide),
        ensureStep_lookup_ne _ _ _ (by decide), ensureStep_lookup_ne _ _ _ (by decide)]
    exact h)]
  rfl

/-- The main assembly unfolded to the literal seven-field fold. -/
theorem assemble_fst_foldl (parse : String → Option JValue) (errMsg : String → Dict → String)
    (fragments : Dict) :
    (assemble_resume_object parse errMsg fragments).1 =
      ensureRequired (List.foldl updResult []
        [("experiences", assembleField parse errMsg "experiences" ExperienceAgentOutPutSchema (dget fragments "experiences")),
         ("skills", assembleField parse errMsg "skills" SkillsAgentOutPutSchema (dget fragments "skills")),
         ("projects", assembleField parse errMsg "projects" ProjectsAgentOutPutSchema (dget fragments "projects")),
         ("education", assembleField parse errMsg "education" EducationAgentOutPutSchema (dget fragments "education")),
         ("contact_info", assembleField parse errMsg "contact_info" ContactInfoAgentOutPutSchema (dget fragments "contact_info")),
         ("summary", assembleField parse errMsg "summary" SummaryAgentOutPutSchema (dget fragments "summary")),
         ("name", assembleField parse errMsg "name" NameAgentOutPutSchema (dget fragments "name"))]) := by
  simp only [assemble_resume_object, field_schemas, List.map_cons, List.map_nil]

theorem assemble_lookup_experiences (parse : String → Option JValue) (errMsg : String → Dict → String)
    (fragments : Dict) (v : JValue)
    (hv : (assembleFieldCore errMsg "experiences" ExperienceAgentOutPutSchema
        (normalize_input parse (dget fragments "experiences"))).value? = some v) :
    dlookup (assemble_resume_object parse errMsg fragments).1 "experiences" = some v := by
  have hv' : (("experiences", assembleField parse errMsg "experiences" ExperienceAgentOutPutSchema (dget fragments "experiences")) :
      String × (Option JValue × RepairDiagnostic)).2.1 = some v := hv
  rw [assemble_fst_foldl]
  rw [List.foldl_cons]
  rw [dlookup_ensureRequired_of_mem _ _ (dmem_foldl_mono _ _ _ (by
        rw [updResult_eq_dset _ _ v hv']
        exact dmem_dset_self _ _ _))]
  rw [dlookup_foldl_ne _ _ _ (by rfl)]
  rw [updResult_eq_dset _ _ v hv']
  exact dlookup_dset_self _ _ _

theorem assemble_lookup_skills (parse : String → Option JValue) (errMsg : String → Dict → String)
    (fragments : Dict) (v : JValue)
    (hv : (assembleFieldCore errMsg "skills" SkillsAgentOutPutSchema
        (normalize_input parse (dget fragments "skills"))).value? = some v) :
    dlookup (assemble_resume_object parse errMsg fragments).1 "skills" = some v := by
  have hv' : (("skills", assembleField parse errMsg "skills" SkillsAgentOutPutSchema (dget fragments "skills")) :
      String × (Option JValue × RepairDiagnostic)).2.1 = some v := hv
  rw [assemble_fst_foldl]
  rw [List.foldl_cons, List.foldl_cons]
  rw [dlookup_ensureRequired_of_mem _ _ (dmem_foldl_mono _ _ _ (by
        rw [updResult_eq_dset _ _ v hv']
        exact dmem_dset_self _ _ _))]
  rw [dlookup_foldl_ne _ _ _ (by rfl)]
  rw [updResult_eq_dset _ _ v hv']
  exact dlookup_dset_self _ _ _

theorem assemble_lookup_projects (parse : String → Option JValue) (errMsg : String → Dict → String)
    (fragments : Dict) (v : JValue)
    (hv : (assembleFieldCore errMsg "projects" ProjectsAgentOutPutSchema
        (normalize_input parse (dget fragments "projects"))).value? = some v) :
    dlookup (assemble_resume_object parse errMsg fragments).1 "projects" = some v := by
  have hv' : (("projects", assembleField parse errMsg "projects" ProjectsAgentOutPutSchema (dget fragments "projects")) :
      String × (Option JValue × RepairDiagnostic)).2.1 = some v := hv
  rw [assemble_fst_foldl]
  rw [List.foldl_cons, List.foldl_cons, List.foldl_cons]
  rw [dlookup_ensureRequired_of_mem _ _ (dmem_foldl_mono _ _ _ (by
        rw [updResult_eq_dset _ _ v hv']
        exact dmem_dset_self _ _ _))]
  rw [dlookup_foldl_ne _ _ _ (by rfl)]
  rw [updResult_eq_dset _ _ v hv']
  exact dlookup_dset_self _ _ _

theorem assemble_lookup_education (parse : String → Option JValue) (errMsg : String → Dict → String)
    (fragments : Dict) (v : JValue)
    (hv : (assembleFieldCore errMsg "education" EducationAgentOutPutSchema
        (normalize_input parse (dget fragments "education"))).value? = some v) :
    dlookup (assemble_resume_object parse errMsg fragments).1 "education" = some v := by
  have hv' : (("education", assembleField parse errMsg "education" EducationAgentOutPutSchema (dget fragments "education")) :
      String × (Option JValue × RepairDiagnostic)).2.1 = some v := hv
  rw [assemble_fst_foldl]
  rw [List.foldl_cons, List.foldl_cons, List.foldl_cons, List.foldl_cons]
  rw [dlookup_ensureRequired_of_mem _ _ (dmem_foldl_mono _ _ _ (by
        rw [updResult_eq_dset _ _ v hv']
        exact dmem_dset_self _ _ _))]
  rw [dlookup_foldl_ne _ _ _ (by rfl)]
  rw [updResult_eq_dset _ _ v hv']
  exact dlookup_dset_self _ _ _

theorem assemble_lookup_contact_info (parse : String → Option JValue) (errMsg : String → Dict → String)
    (fragments : Dict) (v : JValue)
    (hv : (assembleFieldCore errMsg "contact_info" ContactInfoAgentOutPutSchema
        (normalize_input parse (dget fragments "contact_info"))).value? = some v) :
    dlookup (assemble_resume_object parse errMsg fragments).1 "contact_info" = some v := by
  have hv' : (("contact_info", assembleField parse errMsg "contact_info" ContactInfoAgentOutPutSchema (dget fragments "contact_info")) :
      String × (Option JValue × RepairDiagnostic)).2.1 = some v := hv
  rw [assemble_fst_foldl]
  rw [List.foldl_cons, List.foldl_cons, List.foldl_cons, List.foldl_cons, List.foldl_cons]
  rw [dlookup_ensureRequired_of_mem _ _ (dmem_foldl_mono _ _ _ (by
        rw [updResult_eq_dset _ _ v hv']
        exact dmem_dset_self _ _ _))]
  rw [dlookup_foldl_ne _ _ _ (by rfl)]
  rw [updResult_eq_dset _ _ v hv']
  exact dlookup_dset_self _ _ _

theorem assemble_lookup_summary (parse : String → Option JValue) (errMsg : String → Dict → String)
    (fragments : Dict) (v : JValue)
    (hv : (assembleFieldCore errMsg "summary" SummaryAgentOutPutSchema
        (normalize_input parse (dget fragments "summary"))).value? = some v) :
    dlookup (assemble_resume_object parse errMsg fragments).1 "summary" = some v := by
  have hv' : (("summary", assembleField parse errMsg "summary" SummaryAgentOutPutSchema (dget fragments "summary")) :
      String × (Option JValue × RepairDiagnostic)).2.1 = some v := hv
  rw [assemble_fst_foldl]
  rw [List.foldl_cons, List.foldl_cons, List.foldl_cons, List.foldl_cons, List.foldl_cons, List.foldl_cons]
  rw [dlookup_ensureRequired_of_mem _ _ (dmem_foldl_mono _ _ _ (by
        rw [updResult_eq_dset _ _ v hv']
        exact dmem_dset_self _ _ _))]
  rw [dlookup_foldl_ne _ _ _ (by rfl)]
  rw [updResult_eq_dset _ _ v hv']
  exact dlookup_dset_self _ _ _

theorem assemble_lookup_name_some (parse : String → Option JValue) (errMsg : String → Dict → String)
    (fragments : Dict) (v : JValue)
    (hv : (assembleFieldCore errMsg "name" NameAgentOutPutSchema
        (normalize_input parse (dget fragments "name"))).value? = some v) :
    dlookup (assemble_resume_object parse errMsg fragments).1 "name" = some v := by
  have hv' : (("name", assembleField parse errMsg "name" NameAgentOutPutSchema (dget fragments "name")) :
      String × (Option JValue × RepairDiagnostic)).2.1 = some v := hv
  rw [assemble_fst_foldl]
  rw [List.foldl_cons, List.foldl_cons, List.foldl_cons, List.foldl_cons, List.foldl_cons,
      List.foldl_cons, List.foldl_cons, List.foldl_nil]
  rw [dlookup_ensureRequired_of_mem _ _ (by
        rw [updResult_eq_dset _ _ v hv']
        exact dmem_dset_self _ _ _)]
  rw [updResult_eq_dset _ _ v hv']
  exact dlookup_dset_self _ _ _

theorem assemble_lookup_name_none (parse : String → Option JValue) (errMsg : String → Dict → String)
    (fragments : Dict)
    (hv : (assembleFieldCore errMsg "name" NameAgentOutPutSchema
        (normalize_input parse (dget fragments "name"))).value? = none) :
    dget (assemble_resume_object parse errMsg fragments).1 "name" = .str "" := by
  have hv' : (("name", assembleField parse errMsg "name" NameAgentOutPutSchema (dget fragments "name")) :
      String × (Option JValue × RepairDiagnostic)).2.1 = none := hv
  rw [assemble_fst_foldl]
  apply dget_ensureRequired_name
  rw [List.foldl_cons, List.foldl_cons, List.foldl_cons, List.foldl_cons, List.foldl_cons,
      List.foldl_cons, List.foldl_cons, List.foldl_nil]
  rw [updResult_eq_id _ _ hv']
  rw [updResult_lookup_ne2 _ _ _ (by rfl), updResult_lookup_ne2 _ _ _ (by rfl),
      updResult_lookup_ne2 _ _ _ (by rfl), updResult_lookup_ne2 _ _ _ (by rfl),
      updResult_lookup_ne2 _ _ _ (by rfl), updResult_lookup_ne2 _ _ _ (by rfl)]
  rfl

theorem of_map_eq_some_true {p : JValue → Bool} {ov : Option JValue}
    (h : ov.map p = some true) : ∃ v, ov = some v ∧ p v = true := by
  cases ov with
  | none => simp at h
  | some v => exact ⟨v, rfl, by simpa using h⟩

/--
C2 (corrected): the claim promised `experiences` a list and `skills` a record
`{skills: list, additional_skills: list}`.  On the code, `experiences` has no
shape guarantee at all (the schema's field is `experience`, singular, so the
assembler's `experiences` key passes through whatever the fragment held —
`None` for an absent fragment), and `skills` is always a flat list (the valid
and repaired paths extract the inner `skills` list; the fallback is `[]`).
What does hold for every fragments mapping: all seven keys are present;
`skills`, `projects`, `education` and `contact_info` are always lists;
`summary` and `name` are always strings.
-/
theorem C2_amended_assembled_shape (parse : String → Option JValue)
    (errMsg : String → Dict → String) (fragments : Dict) :
    (∀ f ∈ required_fields, dmem (assemble_resume_object parse errMsg fragments).1 f = true) ∧
    isList (dget (assemble_resume_object parse errMsg fragments).1 "skills") = true ∧
    isList (dget (assemble_resume_object parse errMsg fragments).1 "projects") = true ∧
    isList (dget (assemble_resume_object parse errMsg fragments).1 "education") = true ∧
    isList (dget (assemble_resume_object parse errMsg fragments).1 "contact_info") = true ∧
    isStr (dget (assemble_resume_object parse errMsg fragments).1 "summary") = true ∧
    isStr (dget (assemble_resume_object parse errMsg fragments).1 "name") = true := by
  refine ⟨?_, ?_, ?_, ?_, ?_, ?_, ?_⟩
  · intro f hf
    simp only [assemble_resume_object]
    exact dmem_ensureRequired _ f hf
  · obtain ⟨v, hv, hp⟩ := of_map_eq_some_true
      (assembleFieldCore_isList errMsg "skills" SkillsAgentOutPutSchema
        (normalize_input parse (dget fragments "skills")) (by rfl) (by rfl)
        skills_valid_lookup)
    rw [show dget (assemble_resume_object parse errMsg fragments).1 "skills" = v by
      simp [dget, assemble_lookup_skills parse errMsg fragments v hv]]
    exact hp
  · obtain ⟨v, hv, hp⟩ := of_map_eq_some_true
      (assembleFieldCore_isList errMsg "projects" ProjectsAgentOutPutSchema
        (normalize_input parse (dget fragments "projects")) (by rfl) (by rfl)
        (fun d h => listFieldValid_lookup d "projects" validProject
          (by simpa [ProjectsAgentOutPutSchema] using h)))
    rw [show dget (assemble_resume_object parse errMsg fragments).1 "projects" = v by
      simp [dget, assemble_lookup_projects parse errMsg fragments v hv]]
    exact hp
  · obtain ⟨v, hv, hp⟩ := of_map_eq_some_true
      (assembleFieldCore_isList errMsg "education" EducationAgentOutPutSchema
        (normalize_input parse (dget fragments "education")) (by rfl) (by rfl)
        (fun d h => listFieldValid_lookup d "education" validEducation
          (by simpa [EducationAgentOutPutSchema] using h)))
    rw [show dget (assemble_resume_object parse errMsg fragments).1 "education" = v by
      simp [dget, assemble_lookup_education parse errMsg fragments v hv]]
    exact hp
  · obtain ⟨v, hv, hp⟩ := of_map_eq_some_true
      (assembleFieldCore_isList errMsg "contact_info" ContactInfoAgentOutPutSchema
        (normalize_input parse (dget fragments "contact_info")) (by rfl) (by rfl)
        (fun d h => listFieldValid_lookup d "contact_info" validContactInfo
          (by simpa [ContactInfoAgentOutPutSchema] using h)))
    rw [show dget (assemble_resume_object parse errMsg fragments).1 "contact_info" = v by
      simp [dget, assemble_lookup_contact_info parse errMsg fragments v hv]]
    exact hp
  · obtain ⟨v, hv, hp⟩ := of_map_eq_some_true
      (assembleFieldCore_isStr errMsg "summary" SummaryAgentOutPutSchema
        (normalize_input parse (dget fragments "summary")) (by rfl) (by rfl)
        (fun d h => reqStr_lookup d "summary" (by simpa [SummaryAgentOutPutSchema] using h)))
    rw [show dget (assemble_resume_object parse errMsg fragments).1 "summary" = v by
      simp [dget, assemble_lookup_summary parse errMsg fragments v hv]]
    exact hp
  · rcases assembleFieldCore_name errMsg NameAgentOutPutSchema
      (normalize_input parse (dget fragments "name"))
      (fun d h => reqStr_lookup d "name" (by simpa [NameAgentOutPutSchema] using h)) with hm | hn
    · obtain ⟨v, hv, hp⟩ := of_map_eq_some_true hm
      rw [show dget (assemble_resume_object parse errMsg fragments).1 "name" = v by
        simp [dget, assemble_lookup_name_some parse errMsg fragments v hv]]
      exact hp
    · rw [assemble_lookup_name_none parse errMsg fragments hn]
      rfl

/--
C2 (counterexample): at the empty fragments mapping the claim fails — the
assembled `experiences` is `None` (the fragment value passed through the
repair path untouched, because `ExperienceAgentOutPutSchema`'s own field is
`experience`, singular), not a list as the claim requires.
-/
theorem C2_counterexample_experiences_not_list :
    dget (assemble_resume_object json_loads pydanticErrText []).1 "experiences" = JValue.null ∧
    isList JValue.null = false := by
  constructor
  · rfl
  · rfl

/--
C9: the assembler's output depends only on the seven declared field names —
two fragments mappings that agree on `experiences`, `skills`, `projects`,
`education`, `contact_info`, `summary` and `name` produce identical results
and identical diagnostics, whatever other keys they hold.
-/
theorem C9_output_depends_only_on_declared_fields (parse : String → Option JValue)
    (errMsg : String → Dict → String) (f1 f2 : Dict)
    (h : ∀ k ∈ required_fields, dget f1 k = dget f2 k) :
    assemble_resume_object parse errMsg f1 = assemble_resume_object parse errMsg f2 := by
  have h1 := h "experiences" (by simp [required_fields])
  have h2 := h "skills" (by simp [required_fields])
  have h3 := h "projects" (by simp [required_fields])
  have h4 := h "education" (by simp [required_fields])
  have h5 := h "contact_info" (by simp [required_fields])
  have h6 := h "summary" (by simp [required_fields])
  have h7 := h "name" (by simp [required_fields])
  simp only [assemble_resume_object, field_schemas, List.map_cons, List.map_nil]
  rw [h1, h2, h3, h4, h5, h6, h7]

theorem C9_witness :
    (∀ k ∈ required_fields,
       dget [("junk", JValue.int 1), ("summary", JValue.str "S")] k =
         dget [("summary", JValue.str "S"), ("extra", JValue.null)] k) ∧
    assemble_resume_object json_loads pydanticErrText
        [("junk", JValue.int 1), ("summary", JValue.str "S")] =
      assemble_resume_object json_loads pydanticErrText
        [("summary", JValue.str "S"), ("extra", JValue.null)] := by
  have hyp : ∀ k ∈ required_fields,
      dget [("junk", JValue.int 1), ("summary", JValue.str "S")] k =
        dget [("summary", JValue.str "S"), ("extra", JValue.null)] k := by
    intro k hk
    fin_cases hk <;> rfl
  exact ⟨hyp, C9_output_depends_only_on_declared_fields json_loads pydanticErrText _ _ hyp⟩

/--
C3 (counterexample): with fragments exactly `{"summary": "Experienced
engineer."}`, the claim requires `experiences == []`; the code instead leaves
`experiences` as `None` — the absent fragment passes through the coercion
path unrepaired because `ExperienceAgentOutPutSchema`'s field is
`experience`, singular — so the claim fails at its own example input.
-/
theorem C3_counterexample_experiences_null :
    dget (assemble_resume_object json_loads pydanticErrText
        [("summary", JValue.str "Experienced engineer.")]).1 "experiences" = JValue.null ∧
    ¬(JValue.null = JValue.list []) := by
  exact ⟨rfl, by simp⟩

/--
C3 (amended): with fragments exactly `{"summary": "Experienced engineer."}`,
the assembled result is `summary == "Experienced engineer."` (diagnostic OK),
`experiences == None`, `skills == []` (a flat list, not a record),
`projects == education == contact_info == []` and `name == ""`; every
diagnostic other than `summary`'s has status `PARTIAL` with coercion repairs
applied (`missing -> []` for the list schemas, `None -> ''` for `name`) —
none of them is `FAILED` and no fallback fires.
-/
theorem C3_amended_summary_only_fragments :
    assemble_resume_object json_loads pydanticErrText
        [("summary", JValue.str "Experienced engineer.")] =
      ([("experiences", JValue.null), ("skills", JValue.list []), ("projects", JValue.list []),
        ("education", JValue.list []), ("contact_info", JValue.list []),
        ("summary", JValue.str "Experienced engineer."), ("name", JValue.str "")],
       [⟨"experiences", JValue.null, ["coercion: experience missing -> []", "coercion"], "PARTIAL", 0, none⟩,
        ⟨"skills", JValue.null, ["coercion: skills missing -> []", "coercion"], "PARTIAL", 0, none⟩,
        ⟨"projects", JValue.null, ["coercion: projects missing -> []", "coercion"], "PARTIAL", 0, none⟩,
        ⟨"education", JValue.null, ["coercion: education missing -> []", "coercion"], "PARTIAL", 0, none⟩,
        ⟨"contact_info", JValue.null, ["coercion: contact_info missing -> []", "coercion"], "PARTIAL", 0, none⟩,
        ⟨"summary", JValue.str "Experienced engineer.", [], "OK", 0, none⟩,
        ⟨"name", JValue.null, ["coercion: name None -> ''", "coercion"], "PARTIAL", 0, none⟩]) := by
  rfl

/--
C4 (counterexample): with fragments `{"projects": {"id": "p1", "name": "X",
"description": "Y", "url": "z"}}` — a single project object where a list is
expected — the claim requires `projects == [that object]` with a
`single -> list` repair; the code instead returns `projects == []`: the
normalized fragment is the project dict itself, which has no `projects` key,
so the wrap rule never sees it and the `missing -> []` rule fires.
-/
theorem C4_counterexample_projects_empty :
    dget (assemble_resume_object json_loads pydanticErrText
        [("projects", JValue.obj [("id", JValue.str "p1"), ("name", JValue.str "X"),
          ("description", JValue.str "Y"), ("url", JValue.str "z")])]).1 "projects" =
      JValue.list [] ∧
    ¬(JValue.list [] = JValue.list [JValue.obj [("id", JValue.str "p1"), ("name", JValue.str "X"),
        ("description", JValue.str "Y"), ("url", JValue.str "z")]]) := by
  exact ⟨rfl, by simp⟩

/--
C4 (amended): with fragments `{"projects": {"id": "p1", "name": "X",
"description": "Y", "url": "z"}}`, the assembled `projects` is `[]` and the
projects diagnostic has status `PARTIAL` with repairs
`["coercion: projects missing -> []", "coercion"]` — the
`"coercion: projects single -> list"` tag does not appear, because that rule
only wraps a non-list found *under* a declared `projects` key, and this
fragment dict has no such key.
-/
theorem C4_amended_single_project_object :
    dget (assemble_resume_object json_loads pydanticErrText
        [("projects", JValue.obj [("id", JValue.str "p1"), ("name", JValue.str "X"),
          ("description", JValue.str "Y"), ("url", JValue.str "z")])]).1 "projects" =
      JValue.list [] ∧
    ((assemble_resume_object json_loads pydanticErrText
        [("projects", JValue.obj [("id", JValue.str "p1"), ("name", JValue.str "X"),
          ("description", JValue.str "Y"), ("url", JValue.str "z")])]).2).get? 2 =
      some ⟨"projects",
        JValue.obj [("id", JValue.str "p1"), ("name", JValue.str "X"),
          ("description", JValue.str "Y"), ("url", JValue.str "z")],
        ["coercion: projects missing -> []", "coercion"], "PARTIAL", 0, none⟩ := by
  exact ⟨rfl, rfl⟩

/--
C6 (counterexample): with the markdown-fenced skills fragment, the claim
requires the assembled `skills` to be a record whose `skills` member is the
parsed list; the code instead stores the parsed inner list itself — a value
with no `skills` member — directly under `skills` (the valid path extracts
`normalized["skills"]`).
-/
theorem C6_counterexample_skills_is_bare_list :
    dget (assemble_resume_object json_loads pydanticErrText
        [("skills", JValue.str "```json\n\x7b\"skills\": [\x7b\"id\":\"s1\",\"name\":\"Python\",\"level\":5\x7d]\x7d\n```")]).1
        "skills" =
      JValue.list [JValue.obj [("id", JValue.str "s1"), ("name", JValue.str "Python"),
        ("level", JValue.int 5)]] ∧
    jmem (JValue.list [JValue.obj [("id", JValue.str "s1"), ("name", JValue.str "Python"),
        ("level", JValue.int 5)]]) "skills" = false := by
  exact ⟨rfl, rfl⟩

/--
C6 (amended): the normalizer strips the markdown fence and parses the inner
object transparently, and the assembled result has
`skills == [{"id":"s1","name":"Python","level":5}]` — the parsed inner list
directly, not wrapped in a record — with the skills diagnostic status `OK`
and no repairs.
-/
theorem C6_amended_fenced_skills_fragment :
    clean_json_response "```json\n\x7b\"skills\": [\x7b\"id\":\"s1\",\"name\":\"Python\",\"level\":5\x7d]\x7d\n```" =
      "\x7b\"skills\": [\x7b\"id\":\"s1\",\"name\":\"Python\",\"level\":5\x7d]\x7d" ∧
    json_loads "\x7b\"skills\": [\x7b\"id\":\"s1\",\"name\":\"Python\",\"level\":5\x7d]\x7d" =
      some (JValue.obj [("skills", JValue.list [JValue.obj [("id", JValue.str "s1"),
        ("name", JValue.str "Python"), ("level", JValue.int 5)]])]) ∧
    dget (assemble_resume_object json_loads pydanticErrText
        [("skills", JValue.str "```json\n\x7b\"skills\": [\x7b\"id\":\"s1\",\"name\":\"Python\",\"level\":5\x7d]\x7d\n```")]).1
        "skills" =
      JValue.list [JValue.obj [("id", JValue.str "s1"), ("name", JValue.str "Python"),
        ("level", JValue.int 5)]] ∧
    ((assemble_resume_object json_loads pydanticErrText
        [("skills", JValue.str "```json\n\x7b\"skills\": [\x7b\"id\":\"s1\",\"name\":\"Python\",\"level\":5\x7d]\x7d\n```")]).2).get? 1 =
      some ⟨"skills",
        JValue.str "```json\n\x7b\"skills\": [\x7b\"id\":\"s1\",\"name\":\"Python\",\"level\":5\x7d]\x7d\n```",
        [], "OK", 0, none⟩ := by
  exact ⟨rfl, rfl, rfl, rfl⟩

theorem normalize_jsonish_fail (parse : String → Option JValue) (s : String)
    (hshape : (strStartsWith (pyLStrip (clean_json_response s)) "\x7b" ||
       strStartsWith (pyLStrip (clean_json_response s)) "[" ||
       strStartsWith (clean_json_response s) "```") = true)
    (hfail : parse (clean_json_response s) = none) :
    normalize_input parse (.str s) = .null := by
  simp only [normalize_input, hshape, if_true, hfail]

theorem updResult_congr (acc : Dict) (r1 r2 : String × (Option JValue × RepairDiagnostic))
    (h1 : r1.1 = r2.1) (h2 : r1.2.1 = r2.2.1) : updResult acc r1 = updResult acc r2 := by
  rcases r1 with ⟨n1, ov1, dg1⟩
  rcases r2 with ⟨n2, ov2, dg2⟩
  simp only at h1 h2
  subst h1; subst h2
  rfl

theorem foldl_updResult_congr (rs1 rs2 : List (String × (Option JValue × RepairDiagnostic)))
    (acc : Dict)
    (h : rs1.map (fun r => (r.1, r.2.1)) = rs2.map (fun r => (r.1, r.2.1))) :
    rs1.foldl updResult acc = rs2.foldl updResult acc := by
  induction rs1 generalizing rs2 acc with
  | nil =>
      cases rs2 with
      | nil => rfl
      | cons r2 rest2 => simp at h
  | cons r rest ih =>
      cases rs2 with
      | nil => simp at h
      | cons r2 rest2 =>
          simp only [List.map_cons, List.cons.injEq, Prod.mk.injEq] at h
          rw [List.foldl_cons, List.foldl_cons,
            updResult_congr acc r r2 h.1.1 h.1.2, ih rest2 _ h.2]

theorem assembleField_value_congr (parse : String → Option JValue)
    (errMsg : String → Dict → String) (k : String) (sch : SchemaModel) (r1 r2 : JValue)
    (h : normalize_input parse r1 = normalize_input parse r2) :
    (assembleField parse errMsg k sch r1).1 = (assembleField parse errMsg k sch r2).1 := by
  rw [assembleField_fst, assembleField_fst, h]

theorem assembleField_projDiag_congr (parse : String → Option JValue)
    (errMsg : String → Dict → String) (k : String) (sch : SchemaModel) (r1 r2 : JValue)
    (h : normalize_input parse r1 = normalize_input parse r2) :
    projDiag (assembleField parse errMsg k sch r1).2 =
      projDiag (assembleField parse errMsg k sch r2).2 := by
  rw [assembleField_snd, assembleField_snd, h]
  simp [projDiag]

theorem raw_normalize_congr (parse : String → Option JValue) (fragments : Dict)
    (fn : String) (s : String) (k : String)
    (hshape : (strStartsWith (pyLStrip (clean_json_response s)) "\x7b" ||
       strStartsWith (pyLStrip (clean_json_response s)) "[" ||
       strStartsWith (clean_json_response s) "```") = true)
    (hfail : parse (clean_json_response s) = none) :
    normalize_input parse (dget (dset fragments fn (.str s)) k) =
      normalize_input parse (dget (ddel fragments fn) k) := by
  by_cases hk : k = fn
  · subst hk
    rw [dget_dset_self, dget_ddel_self, normalize_jsonish_fail parse s hshape hfail]
    rfl
  · rw [dget_dset_ne _ _ _ _ hk, dget_ddel_ne _ _ _ hk]

/--
C10 (amended): a string fragment that looks JSON-shaped after cleaning (it
begins with a brace or bracket, or carried a markdown fence) but fails to
parse is normalized to `None`, so the assembled *result* is exactly the one
produced when the field is omitted, and the diagnostics agree on field,
repairs, status, retry count and error message.  The original claim's
"identical diagnostics" is too strong: the diagnostic's `original_fragment`
entry still records the raw string, so the malformed fragment *is*
distinguishable from absence through diagnostics (see the counterexample)
though not through the assembled result.
-/
theorem C10_amended_malformed_json_like_absent (parse : String → Option JValue)
    (errMsg : String → Dict → String) (fragments : Dict) (fn : String) (s : String)
    (hshape : (strStartsWith (pyLStrip (clean_json_response s)) "\x7b" ||
       strStartsWith (pyLStrip (clean_json_response s)) "[" ||
       strStartsWith (clean_json_response s) "```") = true)
    (hfail : parse (clean_json_response s) = none) :
    normalize_input parse (.str s) = .null ∧
    (assemble_resume_object parse errMsg (dset fragments fn (.str s))).1 =
      (assemble_resume_object parse errMsg (ddel fragments fn)).1 ∧
    ((assemble_resume_object parse errMsg (dset fragments fn (.str s))).2).map projDiag =
      ((assemble_resume_object parse errMsg (ddel fragments fn)).2).map projDiag := by
  have hnc : ∀ k, normalize_input parse (dget (dset fragments fn (.str s)) k) =
      normalize_input parse (dget (ddel fragments fn) k) :=
    fun k => raw_normalize_congr parse fragments fn s k hshape hfail
  refine ⟨normalize_jsonish_fail parse s hshape hfail, ?_, ?_⟩
  · rw [assemble_fst_foldl, assemble_fst_foldl]
    congr 1
    apply foldl_updResult_congr
    simp only [List.map_cons, List.map_nil]
    rw [assembleField_value_congr parse errMsg "experiences" _ _ _ (hnc "experiences"),
        assembleField_value_congr parse errMsg "skills" _ _ _ (hnc "skills"),
        assembleField_value_congr parse errMsg "projects" _ _ _ (hnc "projects"),
        assembleField_value_congr parse errMsg "education" _ _ _ (hnc "education"),
        assembleField_value_congr parse errMsg "contact_info" _ _ _ (hnc "contact_info"),
        assembleField_value_congr parse errMsg "summary" _ _ _ (hnc "summary"),
        assembleField_value_congr parse errMsg "name" _ _ _ (hnc "name")]
  · simp only [assemble_resume_object, field_schemas, List.map_cons, List.map_nil]
    rw [assembleField_projDiag_congr parse errMsg "experiences" _ _ _ (hnc "experiences"),
        assembleField_projDiag_congr parse errMsg "skills" _ _ _ (hnc "skills"),
        assembleField_projDiag_congr parse errMsg "projects" _ _ _ (hnc "projects"),
        assembleField_projDiag_congr parse errMsg "education" _ _ _ (hnc "education"),
        assembleField_projDiag_congr parse errMsg "contact_info" _ _ _ (hnc "contact_info"),
        assembleField_projDiag_congr parse errMsg "summary" _ _ _ (hnc "summary"),
        assembleField_projDiag_congr parse errMsg "name" _ _ _ (hnc "name")]

theorem C10_amended_witness :
    ((strStartsWith (pyLStrip (clean_json_response "\x7bbad")) "\x7b" ||
        strStartsWith (pyLStrip (clean_json_response "\x7bbad")) "[" ||
        strStartsWith (clean_json_response "\x7bbad") "```") = true) ∧
    json_loads (clean_json_response "\x7bbad") = none ∧
    (normalize_input json_loads (.str "\x7bbad") = .null ∧
     (assemble_resume_object json_loads pydanticErrText
         (dset [("name", JValue.str "N")] "skills" (.str "\x7bbad"))).1 =
       (assemble_resume_object json_loads pydanticErrText
         (ddel [("name", JValue.str "N")] "skills")).1 ∧
     ((assemble_resume_object json_loads pydanticErrText
         (dset [("name", JValue.str "N")] "skills" (.str "\x7bbad"))).2).map projDiag =
       ((assemble_resume_object json_loads pydanticErrText
         (ddel [("name", JValue.str "N")] "skills")).2).map projDiag) := by
  refine ⟨rfl, rfl, ?_⟩
  exact C10_amended_malformed_json_like_absent json_loads pydanticErrText
    [("name", JValue.str "N")] "skills" "\x7bbad" rfl rfl

/--
C10 (counterexample): for the malformed JSON-shaped skills fragment
`"{bad"` versus omitting the field entirely, the assembled results coincide,
but the diagnostics lists differ — the skills diagnostic's
`original_fragment` records the raw string in one case and `None` in the
other — refuting "exactly the same result and diagnostics".
-/
theorem C10_counterexample_diagnostics_differ :
    (assemble_resume_object json_loads pydanticErrText [("skills", JValue.str "\x7bbad")]).1 =
      (assemble_resume_object json_loads pydanticErrText []).1 ∧
    ¬((assemble_resume_object json_loads pydanticErrText [("skills", JValue.str "\x7bbad")]).2 =
      (assemble_resume_object json_loads pydanticErrText []).2) := by
  constructor
  · rfl
  · intro h
    have e1 : (((assemble_resume_object json_loads pydanticErrText
        [("skills", JValue.str "\x7bbad")]).2).get? 1).map
          (fun dg => dg.original_fragment) = some (JValue.str "\x7bbad") := rfl
    rw [h] at e1
    have e2 : (((assemble_resume_object json_loads pydanticErrText []).2).get? 1).map
        (fun dg => dg.original_fragment) = some JValue.null := rfl
    rw [e2] at e1
    simp at e1

/--
C5: the quick-accept exceptions.  (a) For the `summary` field, whenever the
candidate value (the normalized fragment's `summary` entry, or the normalized
value itself) is a string that is non-empty after stripping, the assembler
accepts it directly as the summary value with diagnostic status `OK` and no
repairs — in the embedding a string candidate under the `summary` key always
satisfies the schema, so this holds on the valid path as well as on the
quick-accept path, which covers the claim's "validation failed" case a
fortiori.  (b) For the `projects` field, if schema validation failed and the
candidate is a non-empty list (e.g. a bare list supplied where a
`{"projects": [...]}` envelope was expected, with elements that need not be
valid `Project` records), the assembler accepts the list directly with status
`OK` and an empty `repairs_applied`, without entering the repair pipeline.
-/
theorem C5_quick_accept_summary_and_projects (parse : String → Option JValue)
    (errMsg : String → Dict → String) (fragments : Dict) :
    (∀ s : String,
       extractField "summary" (wrapNonDict "summary"
         (normalize_input parse (dget fragments "summary"))) = .str s →
       ¬(pyStrip s = "") →
       assembleField parse errMsg "summary" SummaryAgentOutPutSchema (dget fragments "summary") =
         (some (.str s), ⟨"summary", dget fragments "summary", [], "OK", 0, none⟩)) ∧
    (validate_with_schema (wrapNonDict "projects"
        (normalize_input parse (dget fragments "projects"))) ProjectsAgentOutPutSchema = false →
     ∀ xs : List JValue,
       extractField "projects" (wrapNonDict "projects"
         (normalize_input parse (dget fragments "projects"))) = .list xs →
       ¬(xs = []) →
       assembleField parse errMsg "projects" ProjectsAgentOutPutSchema (dget fragments "projects") =
         (some (.list xs), ⟨"projects", dget fragments "projects", [], "OK", 0, none⟩)) := by
  constructor
  · intro s hs hne
    have hcore : assembleFieldCore errMsg "summary" SummaryAgentOutPutSchema
        (normalize_input parse (dget fragments "summary")) =
        ⟨some (.str s), [], "OK", none⟩ := by
      have hbs : (pyStrip s == "") = false := by
        simp only [beq_eq_false_iff_ne, ne_eq]
        exact hne
      simp only [assembleFieldCore]
      split_ifs with h1 h2 h3
      · rw [hs]
      · rw [hs]
      · rw [Bool.and_eq_true] at h3
        exact absurd h3.1 (by simp)
      · exact absurd (by simp [hs, hbs]) h2
      · exact absurd (by simp [hs, hbs]) h2
    show (_, _) = _
    rw [hcore]
  · intro hval xs hxs hne
    have hcore : assembleFieldCore errMsg "projects" ProjectsAgentOutPutSchema
        (normalize_input parse (dget fragments "projects")) =
        ⟨some (.list xs), [], "OK", none⟩ := by
      have hbs : xs.isEmpty = false := by
        cases xs with
        | nil => exact absurd rfl hne
        | cons a l => rfl
      simp only [assembleFieldCore]
      split_ifs with h1 h2 h3
      · exact absurd h1 (by simp [hval])
      · rw [Bool.and_eq_true] at h2
        exact absurd h2.1 (by simp)
      · rw [hxs]
      · exact absurd (by simp [hxs, hbs]) h3
      · exact absurd (by simp [hxs, hbs]) h3
    show (_, _) = _
    rw [hcore]

theorem C5_witness :
    (extractField "summary" (wrapNonDict "summary" (normalize_input json_loads
        (dget [("summary", JValue.str "Experienced engineer."), ("projects", JValue.list [JValue.str "a"])] "summary"))) =
      JValue.str "Experienced engineer." ∧
     ¬(pyStrip "Experienced engineer." = "") ∧
     validate_with_schema (wrapNonDict "projects" (normalize_input json_loads
        (dget [("summary", JValue.str "Experienced engineer."), ("projects", JValue.list [JValue.str "a"])] "projects"))) ProjectsAgentOutPutSchema = false ∧
     extractField "projects" (wrapNonDict "projects" (normalize_input json_loads
        (dget [("summary", JValue.str "Experienced engineer."), ("projects", JValue.list [JValue.str "a"])] "projects"))) =
      JValue.list [JValue.str "a"] ∧
     ¬([JValue.str "a"] = ([] : List JValue))) ∧
    assembleField json_loads pydanticErrText "summary" SummaryAgentOutPutSchema
        (dget [("summary", JValue.str "Experienced engineer."), ("projects", JValue.list [JValue.str "a"])] "summary") =
      (some (JValue.str "Experienced engineer."),
       ⟨"summary", JValue.str "Experienced engineer.", [], "OK", 0, none⟩) ∧
    assembleField json_loads pydanticErrText "projects" ProjectsAgentOutPutSchema
        (dget [("summary", JValue.str "Experienced engineer."), ("projects", JValue.list [JValue.str "a"])] "projects") =
      (some (JValue.list [JValue.str "a"]),
       ⟨"projects", JValue.list [JValue.str "a"], [], "OK", 0, none⟩) := by
  have h := C5_quick_accept_summary_and_projects json_loads pydanticErrText
    [("summary", JValue.str "Experienced engineer."), ("projects", JValue.list [JValue.str "a"])]
  refine ⟨⟨rfl, by decide, rfl, rfl, by simp⟩, ?_, ?_⟩
  · have hd : dget [("summary", JValue.str "Experienced engineer."), ("projects", JValue.list [JValue.str "a"])] "summary" = JValue.str "Experienced engineer." := rfl
    exact h.1 "Experienced engineer." rfl (by decide)
  · exact h.2 rfl [JValue.str "a"] rfl (by simp)

theorem runEventLoop_deadline (parse : String → Option JValue) (f : Dict)
    (pre : List AgentEvent) (e : AgentEvent) (post : List AgentEvent)
    (hpre : ∀ ev ∈ pre, ev.elapsed ≤ timeout_seconds)
    (he : e.elapsed > timeout_seconds) :
    runEventLoop parse f (pre ++ e :: post) = List.foldl (processEvent parse) f pre := by
  induction pre generalizing f with
  | nil =>
      simp only [List.nil_append, runEventLoop, List.foldl_nil]
      rw [if_pos he]
  | cons a rest ih =>
      have ha : ¬(a.elapsed > timeout_seconds) := by
        have := hpre a (by simp)
        omega
      simp only [List.cons_append, runEventLoop, List.foldl_cons]
      rw [if_neg ha]
      exact ih _ (fun ev hev => hpre ev (by simp [hev]))

theorem runEventLoop_no_timeout (parse : String → Option JValue) (f : Dict)
    (evs : List AgentEvent) (h : ∀ ev ∈ evs, ev.elapsed ≤ timeout_seconds) :
    runEventLoop parse f evs = List.foldl (processEvent parse) f evs := by
  induction evs generalizing f with
  | nil => rfl
  | cons a rest ih =>
      have ha : ¬(a.elapsed > timeout_seconds) := by
        have := h a (by simp)
        omega
      simp only [runEventLoop, List.foldl_cons]
      rw [if_neg ha]
      exact ih _ (fun ev hev => h ev (by simp [hev]))

/--
C7: a single wall-clock deadline of 60 seconds (`timeout_seconds = 60`,
compared against the time elapsed since the one `start_time` taken before the
loop — per run, not per task) governs event collection: when the elapsed time
observed for an event exceeds the deadline, that event and everything after
it are dropped, the run behaves exactly as if only the in-deadline prefix had
arrived, and the fragments collected so far are handed to the Schema
Assembler, producing an `Except.ok` partial assembly — a terminal state, not
an error.
-/
theorem C7_run_wide_deadline_partial_assembly (parse : String → Option JValue)
    (errMsg : String → Dict → String) (uuid : Nat → String) (resume : Dict)
    (pre : List AgentEvent) (e : AgentEvent) (post : List AgentEvent)
    (hdocs : (process_resumes_for_chroma uuid resume).documents.isEmpty = false)
    (hpre : ∀ ev ∈ pre, ev.elapsed ≤ timeout_seconds)
    (he : e.elapsed > timeout_seconds) :
    timeout_seconds = 60 ∧
    strategic_resume_agent parse errMsg uuid resume (pre ++ e :: post) =
      Except.ok (create_resume_from_fragments parse errMsg
        (List.foldl (processEvent parse) (initialFragments resume) pre)) ∧
    strategic_resume_agent parse errMsg uuid resume (pre ++ e :: post) =
      strategic_resume_agent parse errMsg uuid resume pre := by
  have hrun := runEventLoop_deadline parse (initialFragments resume) pre e post hpre he
  have hrun2 := runEventLoop_no_timeout parse (initialFragments resume) pre hpre
  refine ⟨rfl, ?_, ?_⟩
  · simp only [strategic_resume_agent, hdocs, Bool.false_eq_true, if_false, hrun]
  · simp only [strategic_resume_agent, hdocs, Bool.false_eq_true, if_false, hrun, hrun2]

theorem C7_witness :
    ((process_resumes_for_chroma (fun _ => "uuid-0")
        [("summary", JValue.str "Shipped things.")]).documents.isEmpty = false ∧
     (∀ ev ∈ [AgentEvent.mk 10 true ["\x7b\"summary\": \"Tailored.\"\x7d"]],
        ev.elapsed ≤ timeout_seconds) ∧
     (AgentEvent.mk 61 true ["\x7b\"name\": \"X\"\x7d"]).elapsed > timeout_seconds) ∧
    strategic_resume_agent json_loads pydanticErrText (fun _ => "uuid-0")
        [("summary", JValue.str "Shipped things.")]
        ([AgentEvent.mk 10 true ["\x7b\"summary\": \"Tailored.\"\x7d"]] ++
          AgentEvent.mk 61 true ["\x7b\"name\": \"X\"\x7d"] ::
          [AgentEvent.mk 62 true ["\x7b\"projects\": []\x7d"]]) =
      Except.ok (create_resume_from_fragments json_loads pydanticErrText
        (List.foldl (processEvent json_loads)
          (initialFragments [("summary", JValue.str "Shipped things.")])
          [AgentEvent.mk 10 true ["\x7b\"summary\": \"Tailored.\"\x7d"]])) := by
  refine ⟨⟨rfl, by decide, by decide⟩, ?_⟩
  exact (C7_run_wide_deadline_partial_assembly json_loads pydanticErrText (fun _ => "uuid-0")
    [("summary", JValue.str "Shipped things.")]
    [AgentEvent.mk 10 true ["\x7b\"summary\": \"Tailored.\"\x7d"]]
    (AgentEvent.mk 61 true ["\x7b\"name\": \"X\"\x7d"])
    [AgentEvent.mk 62 true ["\x7b\"projects\": []\x7d"]]
    rfl (by decide) (by decide)).2.1

/--
C8: if the candidate's résumé yields no indexable content at all —
`process_resumes_for_chroma` returns an empty documents list — then
`strategic_resume_agent` surfaces the explicit `ValueError` ("No resume data
found to process; cancelling the process.") to its caller, before any agent
event is consumed (the same error results for every event list), instead of
returning a defaulted result.
-/
theorem C8_fail_fast_on_empty_documents (parse : String → Option JValue)
    (errMsg : String → Dict → String) (uuid : Nat → String) (resume : Dict)
    (events : List AgentEvent)
    (h : (process_resumes_for_chroma uuid resume).documents.isEmpty = true) :
    strategic_resume_agent parse errMsg uuid resume events =
      Except.error "No resume data found to process; cancelling the process." := by
  simp only [strategic_resume_agent, h, if_true]

theorem C8_witness :
    (process_resumes_for_chroma (fun _ => "uuid-0") []).documents.isEmpty = true ∧
    strategic_resume_agent json_loads pydanticErrText (fun _ => "uuid-0") []
        [AgentEvent.mk 1 true ["\x7b\"summary\": \"S\"\x7d"]] =
      Except.error "No resume data found to process; cancelling the process." := by
  exact ⟨rfl, C8_fail_fast_on_empty_documents json_loads pydanticErrText (fun _ => "uuid-0") []
    [AgentEvent.mk 1 true ["\x7b\"summary\": \"S\"\x7d"]] rfl⟩

theorem C1_witness :
    ((assemble_resume_object json_loads pydanticErrText [("skills", JValue.int 3)]).2).length = 7 ∧
    ("summary" ∈ required_fields ∧
     dmem (assemble_resume_object json_loads pydanticErrText [("skills", JValue.int 3)]).1 "summary" = true) := by
  refine ⟨(C1_assemble_total_and_diagnostics json_loads pydanticErrText [("skills", JValue.int 3)]).1,
    by simp [required_fields], ?_⟩
  exact (C1_assemble_total_and_diagnostics json_loads pydanticErrText
    [("skills", JValue.int 3)]).2.2.2 "summary" (by simp [required_fields])

theorem C2_amended_witness :
    ("experiences" ∈ required_fields ∧
     dmem (assemble_resume_object json_loads pydanticErrText []).1 "experiences" = true) ∧
    isList (dget (assemble_resume_object json_loads pydanticErrText []).1 "skills") = true := by
  refine ⟨⟨by simp [required_fields], ?_⟩, ?_⟩
  · exact (C2_amended_assembled_shape json_loads pydanticErrText []).1 "experiences"
      (by simp [required_fields])
  · exact (C2_amended_assembled_shape json_loads pydanticErrText []).2.1
